import Mathlib

/-!
Verification of the hatch-line generation engine of `src/models.py`
(`BuildStep.generate_hatch_lines` and its sub-routines).

Python floats are modelled as real numbers.  The attribute
`_actual_hatch_spacing`, which `generate_hatch_lines` attaches to `self`
before dispatching to the per-shape generators, is modelled as an
`Option ℝ` field that starts out `none` (attribute absent); the mutating
call `generate_hatch_lines` returns the updated object next to its
result list.  The `while True` loop of the Cohen–Sutherland clipper is
modelled with fuel; the claim C8 theorem proves that 4 clipping
iterations always reach the accept or reject exit for the ordered
rectangle bounds the generator passes, so the fuel never runs out there.
-/

namespace OBP

/-- A 2D point `(x, y)` in mm. -/
abbrev Point : Type := ℝ × ℝ

/-- A hatch segment `((x1, y1), (x2, y2))`, start and end point. -/
abbrev Segment : Type := Point × Point

/-- Embedding of the `BuildStep` dataclass of `src/models.py`, with the
defaults of the source.  The `dimensions` dict is a partial map from key
strings to reals; `dimensions.get(key, 0)` becomes `(dimensions key).getD 0`. -/
@[ext]
structure BuildStep where
  shape_type : String := ""
  dimensions : String → Option ℝ := fun _ => none
  repetitions : ℤ := 1
  x_offset : ℝ := 0
  y_offset : ℝ := 0
  starting_layer : ℤ := 0
  hatching_enabled : Bool := false
  hatch_spacing : ℝ := 0.1
  hatch_spacing_multiplier : ℝ := 1
  hatch_angle : ℝ := 0
  hatch_pattern : String := "linear"
  /-- Models the dynamically attached attribute `_actual_hatch_spacing`:
  `none` means the attribute is absent, in which case
  `getattr(self, '_actual_hatch_spacing', self.hatch_spacing)` falls back
  to `hatch_spacing`. -/
  actual_hatch_spacing : Option ℝ := none

noncomputable section

/-- `BuildStep.calculate_hatch_spacing`: hatch spacing in mm derived from
the beam spot size in microns and the stored multiplier. -/
def BuildStep.calculate_hatch_spacing (s : BuildStep) (spot_size_microns : ℝ) : ℝ :=
  spot_size_microns / 1000 * s.hatch_spacing_multiplier

/-- The `compute_outcode` helper closure of `_clip_line_to_rectangle`
(`INSIDE, LEFT, RIGHT, BOTTOM, TOP = 0, 1, 2, 4, 8`). -/
def compute_outcode (x_min x_max y_min y_max x y : ℝ) : ℕ :=
  (if x < x_min then 1 else if x > x_max then 2 else 0) |||
  (if y < y_min then 4 else if y > y_max then 8 else 0)

/-- Fuel-indexed unfolding of the `while True` loop of
`BuildStep._clip_line_to_rectangle`.  `some (some seg)` models the accept
exit, `some none` the reject exit (`return None`), and `none` means the
fuel ran out (proved unreachable within 4 iterations, claim C8). -/
def clipAux (fuel : ℕ) (x_min x_max y_min y_max x1 y1 x2 y2 : ℝ) :
    Option (Option Segment) :=
  let outcode1 := compute_outcode x_min x_max y_min y_max x1 y1
  let outcode2 := compute_outcode x_min x_max y_min y_max x2 y2
  if outcode1 = 0 ∧ outcode2 = 0 then some (some ((x1, y1), (x2, y2)))
  else if outcode1 &&& outcode2 ≠ 0 then some none
  else
    match fuel with
    | 0 => none
    | fuel + 1 =>
      let outcode := if outcode1 ≠ 0 then outcode1 else outcode2
      let p : Point :=
        if outcode &&& 8 ≠ 0 then
          (x1 + (x2 - x1) * (y_max - y1) / (y2 - y1), y_max)
        else if outcode &&& 4 ≠ 0 then
          (x1 + (x2 - x1) * (y_min - y1) / (y2 - y1), y_min)
        else if outcode &&& 2 ≠ 0 then
          (x_max, y1 + (y2 - y1) * (x_max - x1) / (x2 - x1))
        else
          (x_min, y1 + (y2 - y1) * (x_min - x1) / (x2 - x1))
      if outcode = outcode1 then
        clipAux fuel x_min x_max y_min y_max p.1 p.2 x2 y2
      else
        clipAux fuel x_min x_max y_min y_max x1 y1 p.1 p.2

/-- `BuildStep._clip_line_to_rectangle`: Cohen–Sutherland clipping of a
segment against the axis-aligned rectangle of the given width and height
centered at the origin. -/
def clip_line_to_rectangle (p1 p2 : Point) (width height : ℝ) : Option Segment :=
  (clipAux 4 (-(width / 2)) (width / 2) (-(height / 2)) (height / 2)
    p1.1 p1.2 p2.1 p2.2).getD none

/-- The candidate-line count `int(diagonal / spacing) + 2` shared by the
three family generators.  The ratio is positive wherever this is
evaluated (the guards make both arguments positive), so Python's `int`
truncation is the floor. -/
def hatchNumLines (diagonal spacing : ℝ) : ℕ :=
  (⌊diagonal / spacing⌋).toNat + 2

/-- `BuildStep._generate_rectangle_hatches`: parallel lines perpendicular
to the hatch angle, swept across the bounding diagonal and clipped to the
rectangle, then translated by the step's offsets. -/
def BuildStep.generate_rectangle_hatches (s : BuildStep)
    (width height angle_deg : ℝ) : List Segment :=
  let spacing := (s.actual_hatch_spacing).getD s.hatch_spacing
  if width ≤ 0 ∨ height ≤ 0 ∨ spacing ≤ 0 then []
  else
    let angle_rad := angle_deg * (Real.pi / 180)
    let cos_a := Real.cos angle_rad
    let sin_a := Real.sin angle_rad
    let diagonal := Real.sqrt (width ^ 2 + height ^ 2)
    let start_offset := -diagonal / 2
    (List.range (hatchNumLines diagonal spacing)).filterMap fun (i : ℕ) =>
      let offset := start_offset + (i : ℝ) * spacing
      let px := -offset * sin_a
      let py := offset * cos_a
      let t_max := diagonal
      (clip_line_to_rectangle (px - t_max * cos_a, py - t_max * sin_a)
          (px + t_max * cos_a, py + t_max * sin_a) width height).map fun c =>
        ((c.1.1 + s.x_offset, c.1.2 + s.y_offset),
         (c.2.1 + s.x_offset, c.2.2 + s.y_offset))

/-- `BuildStep._generate_circle_hatches`: chords of the circle at evenly
spaced perpendicular offsets, skipping offsets at or beyond the radius. -/
def BuildStep.generate_circle_hatches (s : BuildStep)
    (diameter angle_deg : ℝ) : List Segment :=
  let spacing := (s.actual_hatch_spacing).getD s.hatch_spacing
  if diameter ≤ 0 ∨ spacing ≤ 0 then []
  else
    let radius := diameter / 2
    let angle_rad := angle_deg * (Real.pi / 180)
    let cos_a := Real.cos angle_rad
    let sin_a := Real.sin angle_rad
    let start_offset := -radius - spacing
    (List.range (hatchNumLines diameter spacing)).filterMap fun (i : ℕ) =>
      let offset := start_offset + (i : ℝ) * spacing
      if |offset| ≥ radius then none
      else
        let chord_half_length := Real.sqrt (radius ^ 2 - offset ^ 2)
        let px := -offset * sin_a
        let py := offset * cos_a
        some ((px - chord_half_length * cos_a + s.x_offset,
               py - chord_half_length * sin_a + s.y_offset),
              (px + chord_half_length * cos_a + s.x_offset,
               py + chord_half_length * sin_a + s.y_offset))

/-- `BuildStep._generate_ellipse_hatches`: intersection of each scan line
with the ellipse via the quadratic `A t² + B t + C = 0`, skipping lines
with negative discriminant. -/
def BuildStep.generate_ellipse_hatches (s : BuildStep)
    (width height angle_deg : ℝ) : List Segment :=
  let spacing := (s.actual_hatch_spacing).getD s.hatch_spacing
  if width ≤ 0 ∨ height ≤ 0 ∨ spacing ≤ 0 then []
  else
    let a := width / 2
    let b := height / 2
    let angle_rad := angle_deg * (Real.pi / 180)
    let cos_a := Real.cos angle_rad
    let sin_a := Real.sin angle_rad
    let diagonal := Real.sqrt (width ^ 2 + height ^ 2)
    let start_offset := -diagonal / 2
    (List.range (hatchNumLines diagonal spacing)).filterMap fun (i : ℕ) =>
      let offset := start_offset + (i : ℝ) * spacing
      let px := -offset * sin_a
      let py := offset * cos_a
      let A := (cos_a / a) ^ 2 + (sin_a / b) ^ 2
      let B := 2 * (px * cos_a / a ^ 2 + py * sin_a / b ^ 2)
      let C := (px / a) ^ 2 + (py / b) ^ 2 - 1
      let discriminant := B ^ 2 - 4 * A * C
      if discriminant < 0 then none
      else
        let sqrt_disc := Real.sqrt discriminant
        let t1 := (-B - sqrt_disc) / (2 * A)
        let t2 := (-B + sqrt_disc) / (2 * A)
        some ((px + t1 * cos_a + s.x_offset, py + t1 * sin_a + s.y_offset),
              (px + t2 * cos_a + s.x_offset, py + t2 * sin_a + s.y_offset))

/-- `BuildStep._generate_hatch_lines_at_angle`: dispatch on `shape_type`,
with the defensive empty fallback for unknown shapes. -/
def BuildStep.generate_hatch_lines_at_angle (s : BuildStep) (angle_deg : ℝ) :
    List Segment :=
  if s.shape_type = "square" then
    s.generate_rectangle_hatches ((s.dimensions "size").getD 0)
      ((s.dimensions "size").getD 0) angle_deg
  else if s.shape_type = "rectangle" then
    s.generate_rectangle_hatches ((s.dimensions "width").getD 0)
      ((s.dimensions "length").getD 0) angle_deg
  else if s.shape_type = "circle" then
    s.generate_circle_hatches ((s.dimensions "diameter").getD 0) angle_deg
  else if s.shape_type = "ellipse" then
    s.generate_ellipse_hatches ((s.dimensions "width").getD 0)
      ((s.dimensions "length").getD 0) angle_deg
  else []

/-- The object state after `generate_hatch_lines` has executed
`self._actual_hatch_spacing = self.calculate_hatch_spacing(spot_size_microns)`. -/
def BuildStep.withSpacing (s : BuildStep) (spot_size_microns : ℝ) : BuildStep :=
  { s with actual_hatch_spacing := some (s.calculate_hatch_spacing spot_size_microns) }

/-- `BuildStep.generate_hatch_lines`.  The source stores the derived
spacing in `self._actual_hatch_spacing` before generating, so the call
returns the produced segments together with the updated object. -/
def BuildStep.generate_hatch_lines (s : BuildStep)
    (spot_size_microns : ℝ := 100) : List Segment × BuildStep :=
  if s.hatching_enabled = false then ([], s)
  else
    let s1 : BuildStep := s.withSpacing spot_size_microns
    let lines := s1.generate_hatch_lines_at_angle s.hatch_angle
    if s.hatch_pattern = "crosshatch" then
      (lines ++ s1.generate_hatch_lines_at_angle (s.hatch_angle + 90), s1)
    else (lines, s1)

/-- The square of the end-to-end scenario of the spec: size 10 mm,
hatching enabled, multiplier 1, angle 0, linear pattern, zero offsets. -/
def demoSquare : BuildStep :=
  { shape_type := "square"
    dimensions := fun k => if k = "size" then some 10 else none
    hatching_enabled := true
    hatch_spacing_multiplier := 1
    hatch_angle := 0
    hatch_pattern := "linear" }

/-- A 3 mm × 4 mm rectangle (bounding diagonal exactly 5 mm) with angle 0,
linear pattern, zero offsets and the given spacing multiplier. -/
def demoRect (m : ℝ) : BuildStep :=
  { shape_type := "rectangle"
    dimensions := fun k =>
      if k = "width" then some 3 else if k = "length" then some 4 else none
    hatching_enabled := true
    hatch_spacing_multiplier := m
    hatch_angle := 0
    hatch_pattern := "linear" }

/-- An ellipse step: width 12 mm, length 18 mm, angle 30 degrees, zero
offsets, multiplier 1, as in the spec's ellipse scenario. -/
def demoEllipse : BuildStep :=
  { shape_type := "ellipse"
    dimensions := fun k =>
      if k = "width" then some 12 else if k = "length" then some 18 else none
    hatching_enabled := true
    hatch_spacing_multiplier := 1
    hatch_angle := 30
    hatch_pattern := "linear" }

/-! ### Basic facts about outcodes -/

lemma compute_outcode_eq_zero {xm xM ym yM x y : ℝ} :
    compute_outcode xm xM ym yM x y = 0 ↔
      xm ≤ x ∧ x ≤ xM ∧ ym ≤ y ∧ y ≤ yM := by
  unfold compute_outcode
  split_ifs <;> simp_all [not_lt]

lemma compute_outcode_mem {xm xM ym yM x y : ℝ} :
    compute_outcode xm xM ym yM x y = 0 ∨ compute_outcode xm xM ym yM x y = 1 ∨
    compute_outcode xm xM ym yM x y = 2 ∨ compute_outcode xm xM ym yM x y = 4 ∨
    compute_outcode xm xM ym yM x y = 5 ∨ compute_outcode xm xM ym yM x y = 6 ∨
    compute_outcode xm xM ym yM x y = 8 ∨ compute_outcode xm xM ym yM x y = 9 ∨
    compute_outcode xm xM ym yM x y = 10 := by
  unfold compute_outcode
  split_ifs <;> simp

lemma outcode_and1 {xm xM ym yM x y : ℝ}
    (h : compute_outcode xm xM ym yM x y &&& 1 ≠ 0) : x < xm := by
  unfold compute_outcode at h
  split_ifs at h <;> first | assumption | exact absurd (by decide) h

lemma outcode_and1_zero {xm xM ym yM x y : ℝ}
    (h : compute_outcode xm xM ym yM x y &&& 1 = 0) : xm ≤ x := by
  unfold compute_outcode at h
  split_ifs at h <;> first | linarith | exact absurd h (by decide)

lemma outcode_and2 {xm xM ym yM x y : ℝ}
    (h : compute_outcode xm xM ym yM x y &&& 2 ≠ 0) : xM < x := by
  unfold compute_outcode at h
  split_ifs at h <;> first | assumption | exact absurd (by decide) h

lemma outcode_and2_zero {xm xM ym yM x y : ℝ} (hx : xm ≤ xM)
    (h : compute_outcode xm xM ym yM x y &&& 2 = 0) : x ≤ xM := by
  unfold compute_outcode at h
  split_ifs at h <;> first | linarith | exact absurd h (by decide)

lemma outcode_and4 {xm xM ym yM x y : ℝ}
    (h : compute_outcode xm xM ym yM x y &&& 4 ≠ 0) : y < ym := by
  unfold compute_outcode at h
  split_ifs at h <;> first | assumption | exact absurd (by decide) h

lemma outcode_and4_zero {xm xM ym yM x y : ℝ}
    (h : compute_outcode xm xM ym yM x y &&& 4 = 0) : ym ≤ y := by
  unfold compute_outcode at h
  split_ifs at h <;> first | linarith | exact absurd h (by decide)

lemma outcode_and8 {xm xM ym yM x y : ℝ}
    (h : compute_outcode xm xM ym yM x y &&& 8 ≠ 0) : yM < y := by
  unfold compute_outcode at h
  split_ifs at h <;> first | assumption | exact absurd (by decide) h

lemma outcode_and8_zero {xm xM ym yM x y : ℝ} (hy : ym ≤ yM)
    (h : compute_outcode xm xM ym yM x y &&& 8 = 0) : y ≤ yM := by
  unfold compute_outcode at h
  split_ifs at h <;> first | linarith | exact absurd h (by decide)

/-- If neither the TOP, BOTTOM nor RIGHT bit is set and the outcode is
nonzero, the LEFT bit is set. -/
lemma outcode_left_of_rest {xm xM ym yM x y : ℝ}
    (hne : compute_outcode xm xM ym yM x y ≠ 0)
    (h8 : compute_outcode xm xM ym yM x y &&& 8 = 0)
    (h4 : compute_outcode xm xM ym yM x y &&& 4 = 0)
    (h2 : compute_outcode xm xM ym yM x y &&& 2 = 0) :
    compute_outcode xm xM ym yM x y &&& 1 ≠ 0 := by
  rcases @compute_outcode_mem xm xM ym yM x y
      with h | h | h | h | h | h | h | h | h <;>
    rw [h] at hne h8 h4 h2 ⊢ <;> revert hne h8 h4 h2 <;> decide

/-- A bit set in one outcode is clear in the other when the bitwise AND of
the two outcodes is zero. -/
lemma and_transfer {a b k : ℕ}
    (ha : a = 0 ∨ a = 1 ∨ a = 2 ∨ a = 4 ∨ a = 5 ∨ a = 6 ∨ a = 8 ∨ a = 9 ∨ a = 10)
    (hb : b = 0 ∨ b = 1 ∨ b = 2 ∨ b = 4 ∨ b = 5 ∨ b = 6 ∨ b = 8 ∨ b = 9 ∨ b = 10)
    (hk : k = 1 ∨ k = 2 ∨ k = 4 ∨ k = 8)
    (hab : a &&& b = 0) (hka : a &&& k ≠ 0) : b &&& k = 0 := by
  rcases hk with rfl | rfl | rfl | rfl <;>
    rcases ha with rfl | rfl | rfl | rfl | rfl | rfl | rfl | rfl | rfl <;>
    rcases hb with rfl | rfl | rfl | rfl | rfl | rfl | rfl | rfl | rfl <;>
    revert hab hka <;> decide

/-! ### Frame lemma: the family generators read only these fields -/

/-- The per-angle family generator depends only on the shape, the
dimensions, the offsets and the spacing in effect (here: the attached
`actual_hatch_spacing`, which shadows the `hatch_spacing` field). -/
lemma generate_at_angle_congr (s₁ s₂ : BuildStep) (θ v : ℝ)
    (hshape : s₁.shape_type = s₂.shape_type)
    (hdims : s₁.dimensions = s₂.dimensions)
    (hx : s₁.x_offset = s₂.x_offset) (hy : s₁.y_offset = s₂.y_offset)
    (ha₁ : s₁.actual_hatch_spacing = some v)
    (ha₂ : s₂.actual_hatch_spacing = some v) :
    s₁.generate_hatch_lines_at_angle θ = s₂.generate_hatch_lines_at_angle θ := by
  unfold BuildStep.generate_hatch_lines_at_angle
    BuildStep.generate_rectangle_hatches BuildStep.generate_circle_hatches
    BuildStep.generate_ellipse_hatches
  rw [hshape, hdims, hx, hy, ha₁, ha₂]
  simp only [Option.getD_some]

/-- Decomposition of an enabled `generate_hatch_lines` call into the
per-angle families generated on the updated object. -/
lemma gen_lines_eq (s : BuildStep) (spot : ℝ) (hen : s.hatching_enabled = true) :
    (s.generate_hatch_lines spot).1 =
      (s.withSpacing spot).generate_hatch_lines_at_angle s.hatch_angle ++
      (if s.hatch_pattern = "crosshatch" then
        (s.withSpacing spot).generate_hatch_lines_at_angle (s.hatch_angle + 90)
      else []) := by
  by_cases hp : s.hatch_pattern = "crosshatch" <;>
    simp [BuildStep.generate_hatch_lines, hen, hp]

/-- Every segment returned by an enabled call belongs to the family of
some angle, generated on the updated object. -/
lemma mem_gen_at_angle (s : BuildStep) (spot : ℝ)
    (hen : s.hatching_enabled = true) (seg : Segment)
    (hseg : seg ∈ (s.generate_hatch_lines spot).1) :
    ∃ θ : ℝ, seg ∈ (s.withSpacing spot).generate_hatch_lines_at_angle θ := by
  rw [gen_lines_eq s spot hen] at hseg
  rcases List.mem_append.mp hseg with hm | hm
  · exact ⟨s.hatch_angle, hm⟩
  · split_ifs at hm with hp
    · exact ⟨s.hatch_angle + 90, hm⟩
    · simp at hm

/-! ### Claim C9: disabled hatching yields the empty list -/

/-- C9: for every `BuildStep` with `hatching_enabled = false`,
`generate_hatch_lines` returns the empty list, regardless of shape,
dimensions, offsets, hatch parameters and spot size. -/
theorem C9_disabled_yields_empty (s : BuildStep) (spot : ℝ)
    (h : s.hatching_enabled = false) :
    (s.generate_hatch_lines spot).1 = [] := by
  simp [BuildStep.generate_hatch_lines, h]

/-- Witness for C9 at a concrete disabled step. -/
theorem C9_witness :
    ({ shape_type := "circle", hatching_enabled := false } :
        BuildStep).hatching_enabled = false ∧
      (({ shape_type := "circle", hatching_enabled := false } :
        BuildStep).generate_hatch_lines 100).1 = [] :=
  ⟨rfl, C9_disabled_yields_empty _ 100 rfl⟩

/-! ### Claim C3: crosshatch composition -/

/-- C3: with hatching enabled, a `crosshatch` step returns exactly the
primary-angle family followed by the family at `hatch_angle + 90`
(generated with the freshly attached spacing), so its length is the sum
of the two family lengths; a `linear` step returns only the primary
family. -/
theorem C3_crosshatch_composition (s : BuildStep) (spot : ℝ)
    (h : s.hatching_enabled = true) :
    (s.hatch_pattern = "crosshatch" →
      (s.generate_hatch_lines spot).1 =
        (s.withSpacing spot).generate_hatch_lines_at_angle s.hatch_angle ++
        (s.withSpacing spot).generate_hatch_lines_at_angle (s.hatch_angle + 90) ∧
      (s.generate_hatch_lines spot).1.length =
        ((s.withSpacing spot).generate_hatch_lines_at_angle s.hatch_angle).length +
        ((s.withSpacing spot).generate_hatch_lines_at_angle
          (s.hatch_angle + 90)).length) ∧
    (s.hatch_pattern = "linear" →
      (s.generate_hatch_lines spot).1 =
        (s.withSpacing spot).generate_hatch_lines_at_angle s.hatch_angle) := by
  constructor
  · intro hp
    rw [gen_lines_eq s spot h, if_pos hp]
    exact ⟨rfl, by rw [List.length_append]⟩
  · intro hp
    rw [gen_lines_eq s spot h, hp]
    simp

/-- Witness for C3 at a concrete crosshatch square. -/
theorem C3_witness :
    (({ demoSquare with hatch_pattern := "crosshatch" } :
        BuildStep).generate_hatch_lines 100).1 =
      (({ demoSquare with hatch_pattern := "crosshatch" } :
        BuildStep).withSpacing 100).generate_hatch_lines_at_angle 0 ++
      (({ demoSquare with hatch_pattern := "crosshatch" } :
        BuildStep).withSpacing 100).generate_hatch_lines_at_angle (0 + 90) :=
  ((C3_crosshatch_composition
      ({ demoSquare with hatch_pattern := "crosshatch" }) 100 rfl).1 rfl).1

/-! ### Claim C10: the stored `hatch_spacing` field is never authoritative -/

/-- C10: two steps that differ only in the stored `hatch_spacing` field
produce identical segment lists from `generate_hatch_lines` for every
spot size: the spacing actually used is always recomputed from
`hatch_spacing_multiplier` and the spot size at the start of the call. -/
theorem C10_hatch_spacing_not_authoritative (s : BuildStep) (spot a b : ℝ) :
    (({ s with hatch_spacing := a } : BuildStep).generate_hatch_lines spot).1 =
      (({ s with hatch_spacing := b } : BuildStep).generate_hatch_lines spot).1 := by
  cases h : s.hatching_enabled with
  | false => simp [BuildStep.generate_hatch_lines, h]
  | true =>
    by_cases hp : s.hatch_pattern = "crosshatch"
    · simp only [BuildStep.generate_hatch_lines, h, hp]
      simp only [Bool.true_eq_false, if_false, if_true, ite_true, ite_false,
        reduceIte]
      exact congrArg₂ (· ++ ·)
        (generate_at_angle_congr _ _ _ (s.calculate_hatch_spacing spot)
          rfl rfl rfl rfl rfl rfl)
        (generate_at_angle_congr _ _ _ (s.calculate_hatch_spacing spot)
          rfl rfl rfl rfl rfl rfl)
    · simp only [BuildStep.generate_hatch_lines, h, hp]
      simp only [Bool.true_eq_false, if_false, if_true, ite_true, ite_false,
        reduceIte]
      exact generate_at_angle_congr _ _ _ (s.calculate_hatch_spacing spot)
        rfl rfl rfl rfl rfl rfl

/-! ### Claim C2: purity of `generate_hatch_lines` -/

/-- C2, counterexample: the call is not free of effects on the object;
it attaches/overwrites the `_actual_hatch_spacing` attribute (modelled by
the `actual_hatch_spacing` field changing from `none` to `some 0.1`). -/
theorem C2_counterexample :
    (demoSquare.generate_hatch_lines 100).2 ≠ demoSquare := by
  intro hcontra
  have h2 := congrArg BuildStep.actual_hatch_spacing hcontra
  simp [BuildStep.generate_hatch_lines, BuildStep.withSpacing, demoSquare] at h2

/-- C2, amended: the call leaves every declared dataclass field unchanged
(only the internal cache attribute `_actual_hatch_spacing` is written),
and it is deterministic: repeating the call on the updated object with
the same spot size returns the identical segment list. -/
theorem C2_amended_fields_and_determinism (s : BuildStep) (spot : ℝ) :
    ((s.generate_hatch_lines spot).2.shape_type = s.shape_type ∧
     (s.generate_hatch_lines spot).2.dimensions = s.dimensions ∧
     (s.generate_hatch_lines spot).2.repetitions = s.repetitions ∧
     (s.generate_hatch_lines spot).2.x_offset = s.x_offset ∧
     (s.generate_hatch_lines spot).2.y_offset = s.y_offset ∧
     (s.generate_hatch_lines spot).2.starting_layer = s.starting_layer ∧
     (s.generate_hatch_lines spot).2.hatching_enabled = s.hatching_enabled ∧
     (s.generate_hatch_lines spot).2.hatch_spacing = s.hatch_spacing ∧
     (s.generate_hatch_lines spot).2.hatch_spacing_multiplier =
       s.hatch_spacing_multiplier ∧
     (s.generate_hatch_lines spot).2.hatch_angle = s.hatch_angle ∧
     (s.generate_hatch_lines spot).2.hatch_pattern = s.hatch_pattern) ∧
    ((s.generate_hatch_lines spot).2.generate_hatch_lines spot).1 =
      (s.generate_hatch_lines spot).1 := by
  cases h : s.hatching_enabled with
  | false => simp [BuildStep.generate_hatch_lines, h]
  | true =>
    by_cases hp : s.hatch_pattern = "crosshatch"
    · simp [BuildStep.generate_hatch_lines, BuildStep.withSpacing, h, hp]
      exact congrArg₂ (· ++ ·)
        (generate_at_angle_congr _ _ _ (s.calculate_hatch_spacing spot)
          rfl rfl rfl rfl rfl rfl)
        (generate_at_angle_congr _ _ _ (s.calculate_hatch_spacing spot)
          rfl rfl rfl rfl rfl rfl)
    · simp [BuildStep.generate_hatch_lines, BuildStep.withSpacing, h, hp]
      exact generate_at_angle_congr _ _ _ (s.calculate_hatch_spacing spot)
        rfl rfl rfl rfl rfl rfl

/-! ### The clipper only accepts segments inside the box -/

/-- Whatever the fuel, an accepted segment of the Cohen–Sutherland loop
lies inside the clipping box: the accept exit requires both outcodes to
be zero. -/
lemma clipAux_accept_bounds (fuel : ℕ) :
    ∀ xm xM ym yM x1 y1 x2 y2 a b c d : ℝ,
      clipAux fuel xm xM ym yM x1 y1 x2 y2 = some (some ((a, b), (c, d))) →
      xm ≤ a ∧ a ≤ xM ∧ ym ≤ b ∧ b ≤ yM ∧ xm ≤ c ∧ c ≤ xM ∧ ym ≤ d ∧ d ≤ yM := by
  induction fuel with
  | zero =>
    intro xm xM ym yM x1 y1 x2 y2 a b c d h
    unfold clipAux at h
    by_cases hacc : compute_outcode xm xM ym yM x1 y1 = 0 ∧
        compute_outcode xm xM ym yM x2 y2 = 0
    · rw [if_pos hacc] at h
      simp only [Option.some.injEq, Prod.mk.injEq] at h
      obtain ⟨⟨ha, hb⟩, hc, hd⟩ := h
      subst ha; subst hb; subst hc; subst hd
      obtain ⟨q1, q2, q3, q4⟩ := compute_outcode_eq_zero.mp hacc.1
      obtain ⟨r1, r2, r3, r4⟩ := compute_outcode_eq_zero.mp hacc.2
      exact ⟨q1, q2, q3, q4, r1, r2, r3, r4⟩
    · rw [if_neg hacc] at h
      split_ifs at h <;> simp at h
  | succ n ih =>
    intro xm xM ym yM x1 y1 x2 y2 a b c d h
    unfold clipAux at h
    by_cases hacc : compute_outcode xm xM ym yM x1 y1 = 0 ∧
        compute_outcode xm xM ym yM x2 y2 = 0
    · rw [if_pos hacc] at h
      simp only [Option.some.injEq, Prod.mk.injEq] at h
      obtain ⟨⟨ha, hb⟩, hc, hd⟩ := h
      subst ha; subst hb; subst hc; subst hd
      obtain ⟨q1, q2, q3, q4⟩ := compute_outcode_eq_zero.mp hacc.1
      obtain ⟨r1, r2, r3, r4⟩ := compute_outcode_eq_zero.mp hacc.2
      exact ⟨q1, q2, q3, q4, r1, r2, r3, r4⟩
    · rw [if_neg hacc] at h
      by_cases hrej : compute_outcode xm xM ym yM x1 y1 &&&
          compute_outcode xm xM ym yM x2 y2 ≠ 0
      · rw [if_pos hrej] at h
        simp at h
      · rw [if_neg hrej] at h
        simp only at h
        split_ifs at h <;> exact ih _ _ _ _ _ _ _ _ _ _ _ _ h

/-- Inversion of `clip_line_to_rectangle`: a returned segment comes from
an accepting run of the loop. -/
lemma clip_some_eq (p1 p2 : Point) (w h : ℝ) (seg : Segment)
    (hc : clip_line_to_rectangle p1 p2 w h = some seg) :
    clipAux 4 (-(w / 2)) (w / 2) (-(h / 2)) (h / 2) p1.1 p1.2 p2.1 p2.2 =
      some (some seg) := by
  unfold clip_line_to_rectangle at hc
  cases hopt : clipAux 4 (-(w / 2)) (w / 2) (-(h / 2)) (h / 2)
      p1.1 p1.2 p2.1 p2.2 with
  | none => rw [hopt] at hc; simp at hc
  | some o => rw [hopt] at hc; simp at hc; rw [hc]

/-- Every segment produced by the rectangle family generator stays inside
the shape's bounding box translated by the step offsets. -/
lemma rect_hatches_in_box (s : BuildStep) (w h θ : ℝ) :
    ∀ seg ∈ s.generate_rectangle_hatches w h θ,
      |seg.1.1 - s.x_offset| ≤ w / 2 ∧ |seg.1.2 - s.y_offset| ≤ h / 2 ∧
      |seg.2.1 - s.x_offset| ≤ w / 2 ∧ |seg.2.2 - s.y_offset| ≤ h / 2 := by
  intro seg hseg
  unfold BuildStep.generate_rectangle_hatches at hseg
  by_cases hguard : w ≤ 0 ∨ h ≤ 0 ∨ (s.actual_hatch_spacing).getD s.hatch_spacing ≤ 0
  · rw [if_pos hguard] at hseg
    simp at hseg
  · rw [if_neg hguard] at hseg
    simp only [List.mem_filterMap, List.mem_range] at hseg
    obtain ⟨i, _, hi⟩ := hseg
    simp only [Option.map_eq_some'] at hi
    obtain ⟨cl, hcl, hmap⟩ := hi
    obtain ⟨⟨cx1, cy1⟩, ⟨cx2, cy2⟩⟩ := cl
    obtain ⟨b1, b2, b3, b4, b5, b6, b7, b8⟩ :=
      clipAux_accept_bounds 4 _ _ _ _ _ _ _ _ _ _ _ _
        (clip_some_eq _ _ w h _ hcl)
    subst hmap
    constructor
    · simpa using abs_le.mpr ⟨by linarith, by linarith⟩
    constructor
    · simpa using abs_le.mpr ⟨by linarith, by linarith⟩
    constructor
    · simpa using abs_le.mpr ⟨by linarith, by linarith⟩
    · simpa using abs_le.mpr ⟨by linarith, by linarith⟩

/-! ### Claim C4: rectangle clip containment -/

/-- C4: for a square or rectangle step with hatching enabled and positive
dimensions, every endpoint of every generated segment lies within the
shape's axis-aligned bounding box translated by the offsets. -/
theorem C4_rect_clip_containment (s : BuildStep) (spot w h : ℝ)
    (hen : s.hatching_enabled = true)
    (hcase : (s.shape_type = "square" ∧ w = (s.dimensions "size").getD 0 ∧
        h = w) ∨
      (s.shape_type = "rectangle" ∧ w = (s.dimensions "width").getD 0 ∧
        h = (s.dimensions "length").getD 0))
    (hw : 0 < w) (hh : 0 < h) :
    ∀ seg ∈ (s.generate_hatch_lines spot).1,
      |seg.1.1 - s.x_offset| ≤ w / 2 ∧ |seg.1.2 - s.y_offset| ≤ h / 2 ∧
      |seg.2.1 - s.x_offset| ≤ w / 2 ∧ |seg.2.2 - s.y_offset| ≤ h / 2 := by
  intro seg hseg
  obtain ⟨θ, hm⟩ := mem_gen_at_angle s spot hen seg hseg
  rcases hcase with ⟨hsh, hwd, hhd⟩ | ⟨hsh, hwd, hhd⟩
  · have hsh' : (s.withSpacing spot).shape_type = "square" := hsh
    simp only [BuildStep.generate_hatch_lines_at_angle, hsh', reduceIte] at hm
    have := rect_hatches_in_box (s.withSpacing spot) _ _ θ seg hm
    rw [hhd, hwd]
    exact this
  · have hsh' : (s.withSpacing spot).shape_type = "rectangle" := hsh
    simp only [BuildStep.generate_hatch_lines_at_angle, hsh', reduceIte] at hm
    have := rect_hatches_in_box (s.withSpacing spot) _ _ θ seg hm
    rw [hwd, hhd]
    exact this

/-- Witness for C4 at the concrete 10 mm square: no segment leaves
the box of half-width 5 around the (zero) offsets. -/
theorem C4_witness :
    (demoSquare.generate_hatch_lines 100).1.Forall (fun seg =>
      |seg.1.1 - demoSquare.x_offset| ≤ 10 / 2 ∧
      |seg.1.2 - demoSquare.y_offset| ≤ 10 / 2 ∧
      |seg.2.1 - demoSquare.x_offset| ≤ 10 / 2 ∧
      |seg.2.2 - demoSquare.y_offset| ≤ 10 / 2) :=
  List.forall_iff_forall_mem.mpr
    (C4_rect_clip_containment demoSquare 100 10 10 rfl
      (Or.inl ⟨rfl, by simp [demoSquare], rfl⟩) (by norm_num) (by norm_num))

/-! ### Claim C5: ellipse endpoints lie exactly on the boundary -/

/-- The smaller root of a real quadratic with nonnegative discriminant
satisfies the quadratic. -/
lemma quadratic_root_neg (A B C r : ℝ) (hA : A ≠ 0)
    (hr : r ^ 2 = B ^ 2 - 4 * A * C) :
    A * ((-B - r) / (2 * A)) ^ 2 + B * ((-B - r) / (2 * A)) + C = 0 := by
  field_simp
  linear_combination 2 * A ^ 2 * hr

/-- The larger root of a real quadratic with nonnegative discriminant
satisfies the quadratic. -/
lemma quadratic_root_pos (A B C r : ℝ) (hA : A ≠ 0)
    (hr : r ^ 2 = B ^ 2 - 4 * A * C) :
    A * ((-B + r) / (2 * A)) ^ 2 + B * ((-B + r) / (2 * A)) + C = 0 := by
  field_simp
  linear_combination 2 * A ^ 2 * hr

/-- Both endpoints of every segment produced by the ellipse family
generator satisfy the ellipse equation exactly: each endpoint is obtained
from a root of the substituted quadratic. -/
lemma ellipse_hatches_on_boundary (s : BuildStep) (w h θ : ℝ)
    (hw : 0 < w) (hh : 0 < h) :
    ∀ seg ∈ s.generate_ellipse_hatches w h θ,
      ((seg.1.1 - s.x_offset) / (w / 2)) ^ 2 +
        ((seg.1.2 - s.y_offset) / (h / 2)) ^ 2 = 1 ∧
      ((seg.2.1 - s.x_offset) / (w / 2)) ^ 2 +
        ((seg.2.2 - s.y_offset) / (h / 2)) ^ 2 = 1 := by
  intro seg hseg
  unfold BuildStep.generate_ellipse_hatches at hseg
  by_cases hguard : w ≤ 0 ∨ h ≤ 0 ∨
      (s.actual_hatch_spacing).getD s.hatch_spacing ≤ 0
  · rw [if_pos hguard] at hseg
    simp at hseg
  · rw [if_neg hguard] at hseg
    simp only [List.mem_filterMap, List.mem_range] at hseg
    obtain ⟨i, _, heq⟩ := hseg
    set c := Real.cos (θ * (Real.pi / 180)) with hc
    set s_ := Real.sin (θ * (Real.pi / 180)) with hs_
    set sp := (s.actual_hatch_spacing).getD s.hatch_spacing with hsp
    set o := -Real.sqrt (w ^ 2 + h ^ 2) / 2 + (i : ℝ) * sp with ho
    set px := -o * s_ with hpx
    set py := o * c with hpy
    set A := (c / (w / 2)) ^ 2 + (s_ / (h / 2)) ^ 2 with hA
    set B := 2 * (px * c / (w / 2) ^ 2 + py * s_ / (h / 2) ^ 2) with hB
    set C := (px / (w / 2)) ^ 2 + (py / (h / 2)) ^ 2 - 1 with hC
    by_cases hd : B ^ 2 - 4 * A * C < 0
    · rw [if_pos hd] at heq
      exact absurd heq (by simp)
    · rw [if_neg hd] at heq
      simp only [Option.some.injEq] at heq
      subst heq
      dsimp only
      push_neg at hd
      have ha0 : (w / 2) ≠ 0 := by positivity
      have hb0 : (h / 2) ≠ 0 := by positivity
      have hApos : 0 < A := by
        rcases eq_or_ne c 0 with hc0 | hc0
        · have hs0 : s_ ≠ 0 := by
            intro hs0
            have := Real.sin_sq_add_cos_sq (θ * (Real.pi / 180))
            rw [← hs_, ← hc, hc0, hs0] at this
            norm_num at this
          have : 0 < (s_ / (h / 2)) ^ 2 :=
            pow_two_pos_of_ne_zero (div_ne_zero hs0 hb0)
          have h1 : (0 : ℝ) ≤ (c / (w / 2)) ^ 2 := sq_nonneg _
          rw [hA]; linarith
        · have : 0 < (c / (w / 2)) ^ 2 :=
            pow_two_pos_of_ne_zero (div_ne_zero hc0 ha0)
          have h1 : (0 : ℝ) ≤ (s_ / (h / 2)) ^ 2 := sq_nonneg _
          rw [hA]; linarith
      have hA0 : A ≠ 0 := ne_of_gt hApos
      have hsq : Real.sqrt (B ^ 2 - 4 * A * C) ^ 2 = B ^ 2 - 4 * A * C :=
        Real.sq_sqrt hd
      have hroot : ∀ t : ℝ, A * t ^ 2 + B * t + C = 0 →
          ((px + t * c + s.x_offset - s.x_offset) / (w / 2)) ^ 2 +
            ((py + t * s_ + s.y_offset - s.y_offset) / (h / 2)) ^ 2 = 1 := by
        intro t ht
        have expand : ((px + t * c) / (w / 2)) ^ 2 +
            ((py + t * s_) / (h / 2)) ^ 2 = A * t ^ 2 + B * t + (C + 1) := by
          rw [hA, hB, hC]
          field_simp
          ring
        simp only [add_sub_cancel_right]
        rw [expand]
        linarith [ht]
      exact ⟨hroot _ (quadratic_root_neg A B C _ hA0 hsq),
        hroot _ (quadratic_root_pos A B C _ hA0 hsq)⟩

/-- C5: for every ellipse step with hatching enabled, positive width,
length and derived spacing, both endpoints of every returned segment
satisfy the ellipse equation exactly (boundary points), in absolute
coordinates. -/
theorem C5_ellipse_endpoints_on_boundary (s : BuildStep) (spot : ℝ)
    (hshape : s.shape_type = "ellipse") (hen : s.hatching_enabled = true)
    (hw : 0 < (s.dimensions "width").getD 0)
    (hl : 0 < (s.dimensions "length").getD 0)
    (hsp : 0 < s.calculate_hatch_spacing spot) :
    ∀ seg ∈ (s.generate_hatch_lines spot).1,
      (((seg.1.1 - s.x_offset) / ((s.dimensions "width").getD 0 / 2)) ^ 2 +
        ((seg.1.2 - s.y_offset) /
          ((s.dimensions "length").getD 0 / 2)) ^ 2 = 1) ∧
      (((seg.2.1 - s.x_offset) / ((s.dimensions "width").getD 0 / 2)) ^ 2 +
        ((seg.2.2 - s.y_offset) /
          ((s.dimensions "length").getD 0 / 2)) ^ 2 = 1) := by
  intro seg hseg
  obtain ⟨θ, hm⟩ := mem_gen_at_angle s spot hen seg hseg
  have hsh' : (s.withSpacing spot).shape_type = "ellipse" := hshape
  simp only [BuildStep.generate_hatch_lines_at_angle, hsh', reduceIte] at hm
  exact ellipse_hatches_on_boundary (s.withSpacing spot) _ _ θ hw hl seg hm

/-- Witness for C5 at the spec's instance: width 12 mm, length 18 mm,
angle 30 degrees, spot size 1500 microns (spacing 1.5 mm). -/
theorem C5_witness :
    (demoEllipse.generate_hatch_lines 1500).1.Forall (fun seg =>
      (((seg.1.1 - demoEllipse.x_offset) /
          ((demoEllipse.dimensions "width").getD 0 / 2)) ^ 2 +
        ((seg.1.2 - demoEllipse.y_offset) /
          ((demoEllipse.dimensions "length").getD 0 / 2)) ^ 2 = 1) ∧
      (((seg.2.1 - demoEllipse.x_offset) /
          ((demoEllipse.dimensions "width").getD 0 / 2)) ^ 2 +
        ((seg.2.2 - demoEllipse.y_offset) /
          ((demoEllipse.dimensions "length").getD 0 / 2)) ^ 2 = 1)) :=
  List.forall_iff_forall_mem.mpr
    (C5_ellipse_endpoints_on_boundary demoEllipse 1500 rfl rfl
      (by simp [demoEllipse]) (by simp [demoEllipse])
      (by norm_num [BuildStep.calculate_hatch_spacing, demoEllipse]))

/-! ### Claim C8: the clipping loop exits within 4 iterations -/

lemma ite_le_one {P : Prop} [Decidable P] : (if P then (1 : ℕ) else 0) ≤ 1 := by
  split_ifs <;> omega

lemma ite_mono_nat {P Q : Prop} [Decidable P] [Decidable Q] (h : P → Q) :
    (if P then (1 : ℕ) else 0) ≤ if Q then 1 else 0 := by
  split_ifs with hp hq
  · omega
  · exact absurd (h hp) hq
  · omega
  · omega

lemma le_combo_of_le (t u1 u2 m : ℝ) (h0 : 0 ≤ t) (h1 : t ≤ 1)
    (hu1 : m ≤ u1) (hu2 : m ≤ u2) : m ≤ u1 + (u2 - u1) * t := by nlinarith

lemma combo_le_of_le (t u1 u2 M : ℝ) (h0 : 0 ≤ t) (h1 : t ≤ 1)
    (hu1 : u1 ≤ M) (hu2 : u2 ≤ M) : u1 + (u2 - u1) * t ≤ M := by nlinarith

/-- Number of rectangle boundaries both endpoints already satisfy.  Each
clipping iteration makes one more boundary permanently safe, which bounds
the iteration count by 4. -/
def safeCount (xm xM ym yM x1 y1 x2 y2 : ℝ) : ℕ :=
  (if xm ≤ x1 ∧ xm ≤ x2 then 1 else 0) +
  (if x1 ≤ xM ∧ x2 ≤ xM then 1 else 0) +
  (if ym ≤ y1 ∧ ym ≤ y2 then 1 else 0) +
  (if y1 ≤ yM ∧ y2 ≤ yM then 1 else 0)

/-- Replacing the first endpoint by a point of the segment that lies
exactly on a previously violated boundary increases `safeCount`. -/
lemma safeCount_succ_replace1 (xm xM ym yM x1 y1 x2 y2 nx ny t : ℝ)
    (ht0 : 0 ≤ t) (ht1 : t ≤ 1)
    (hnx : nx = x1 + (x2 - x1) * t) (hny : ny = y1 + (y2 - y1) * t)
    (hflip :
      (¬(xm ≤ x1 ∧ xm ≤ x2) ∧ (xm ≤ nx ∧ xm ≤ x2)) ∨
      (¬(x1 ≤ xM ∧ x2 ≤ xM) ∧ (nx ≤ xM ∧ x2 ≤ xM)) ∨
      (¬(ym ≤ y1 ∧ ym ≤ y2) ∧ (ym ≤ ny ∧ ym ≤ y2)) ∨
      (¬(y1 ≤ yM ∧ y2 ≤ yM) ∧ (ny ≤ yM ∧ y2 ≤ yM))) :
    safeCount xm xM ym yM x1 y1 x2 y2 + 1 ≤
      safeCount xm xM ym yM nx ny x2 y2 := by
  have hL : (if xm ≤ x1 ∧ xm ≤ x2 then (1 : ℕ) else 0) ≤
      if xm ≤ nx ∧ xm ≤ x2 then 1 else 0 :=
    ite_mono_nat fun hp =>
      ⟨hnx ▸ le_combo_of_le t x1 x2 xm ht0 ht1 hp.1 hp.2, hp.2⟩
  have hR : (if x1 ≤ xM ∧ x2 ≤ xM then (1 : ℕ) else 0) ≤
      if nx ≤ xM ∧ x2 ≤ xM then 1 else 0 :=
    ite_mono_nat fun hp =>
      ⟨hnx ▸ combo_le_of_le t x1 x2 xM ht0 ht1 hp.1 hp.2, hp.2⟩
  have hB : (if ym ≤ y1 ∧ ym ≤ y2 then (1 : ℕ) else 0) ≤
      if ym ≤ ny ∧ ym ≤ y2 then 1 else 0 :=
    ite_mono_nat fun hp =>
      ⟨hny ▸ le_combo_of_le t y1 y2 ym ht0 ht1 hp.1 hp.2, hp.2⟩
  have hT : (if y1 ≤ yM ∧ y2 ≤ yM then (1 : ℕ) else 0) ≤
      if ny ≤ yM ∧ y2 ≤ yM then 1 else 0 :=
    ite_mono_nat fun hp =>
      ⟨hny ▸ combo_le_of_le t y1 y2 yM ht0 ht1 hp.1 hp.2, hp.2⟩
  unfold safeCount
  rcases hflip with ⟨hold, hnew⟩ | ⟨hold, hnew⟩ | ⟨hold, hnew⟩ | ⟨hold, hnew⟩ <;>
    rw [if_neg hold, if_pos hnew] <;> omega

/-- Replacing the second endpoint by a point of the segment that lies
exactly on a previously violated boundary increases `safeCount`. -/
lemma safeCount_succ_replace2 (xm xM ym yM x1 y1 x2 y2 nx ny t : ℝ)
    (ht0 : 0 ≤ t) (ht1 : t ≤ 1)
    (hnx : nx = x1 + (x2 - x1) * t) (hny : ny = y1 + (y2 - y1) * t)
    (hflip :
      (¬(xm ≤ x1 ∧ xm ≤ x2) ∧ (xm ≤ x1 ∧ xm ≤ nx)) ∨
      (¬(x1 ≤ xM ∧ x2 ≤ xM) ∧ (x1 ≤ xM ∧ nx ≤ xM)) ∨
      (¬(ym ≤ y1 ∧ ym ≤ y2) ∧ (ym ≤ y1 ∧ ym ≤ ny)) ∨
      (¬(y1 ≤ yM ∧ y2 ≤ yM) ∧ (y1 ≤ yM ∧ ny ≤ yM))) :
    safeCount xm xM ym yM x1 y1 x2 y2 + 1 ≤
      safeCount xm xM ym yM x1 y1 nx ny := by
  have hL : (if xm ≤ x1 ∧ xm ≤ x2 then (1 : ℕ) else 0) ≤
      if xm ≤ x1 ∧ xm ≤ nx then 1 else 0 :=
    ite_mono_nat fun hp =>
      ⟨hp.1, hnx ▸ le_combo_of_le t x1 x2 xm ht0 ht1 hp.1 hp.2⟩
  have hR : (if x1 ≤ xM ∧ x2 ≤ xM then (1 : ℕ) else 0) ≤
      if x1 ≤ xM ∧ nx ≤ xM then 1 else 0 :=
    ite_mono_nat fun hp =>
      ⟨hp.1, hnx ▸ combo_le_of_le t x1 x2 xM ht0 ht1 hp.1 hp.2⟩
  have hB : (if ym ≤ y1 ∧ ym ≤ y2 then (1 : ℕ) else 0) ≤
      if ym ≤ y1 ∧ ym ≤ ny then 1 else 0 :=
    ite_mono_nat fun hp =>
      ⟨hp.1, hny ▸ le_combo_of_le t y1 y2 ym ht0 ht1 hp.1 hp.2⟩
  have hT : (if y1 ≤ yM ∧ y2 ≤ yM then (1 : ℕ) else 0) ≤
      if y1 ≤ yM ∧ ny ≤ yM then 1 else 0 :=
    ite_mono_nat fun hp =>
      ⟨hp.1, hny ▸ combo_le_of_le t y1 y2 yM ht0 ht1 hp.1 hp.2⟩
  unfold safeCount
  rcases hflip with ⟨hold, hnew⟩ | ⟨hold, hnew⟩ | ⟨hold, hnew⟩ | ⟨hold, hnew⟩ <;>
    rw [if_neg hold, if_pos hnew] <;> omega

/-- Main invariant argument: if at least `4 - fuel` boundaries are
already safe, the loop exits before the fuel runs out.  Each clipping
iteration turns a violated boundary into a safe one and keeps every safe
boundary safe (the new point is a convex combination of the endpoints). -/
lemma clipAux_isSome_of_count (xm xM ym yM : ℝ) (hx : xm ≤ xM) (hy : ym ≤ yM) :
    ∀ (fuel : ℕ) (x1 y1 x2 y2 : ℝ),
      4 ≤ safeCount xm xM ym yM x1 y1 x2 y2 + fuel →
      (clipAux fuel xm xM ym yM x1 y1 x2 y2).isSome = true := by
  intro fuel
  induction fuel with
  | zero =>
    intro x1 y1 x2 y2 hcount
    have hall : (xm ≤ x1 ∧ xm ≤ x2) ∧ (x1 ≤ xM ∧ x2 ≤ xM) ∧
        (ym ≤ y1 ∧ ym ≤ y2) ∧ (y1 ≤ yM ∧ y2 ≤ yM) := by
      unfold safeCount at hcount
      have e1 : (if xm ≤ x1 ∧ xm ≤ x2 then (1 : ℕ) else 0) ≤ 1 := ite_le_one
      have e2 : (if x1 ≤ xM ∧ x2 ≤ xM then (1 : ℕ) else 0) ≤ 1 := ite_le_one
      have e3 : (if ym ≤ y1 ∧ ym ≤ y2 then (1 : ℕ) else 0) ≤ 1 := ite_le_one
      have e4 : (if y1 ≤ yM ∧ y2 ≤ yM then (1 : ℕ) else 0) ≤ 1 := ite_le_one
      refine ⟨?_, ?_, ?_, ?_⟩ <;> by_contra hc <;> rw [if_neg hc] at hcount <;>
        omega
    obtain ⟨hall1, hall2, hall3, hall4⟩ := hall
    have hoc1 : compute_outcode xm xM ym yM x1 y1 = 0 :=
      compute_outcode_eq_zero.mpr ⟨hall1.1, hall2.1, hall3.1, hall4.1⟩
    have hoc2 : compute_outcode xm xM ym yM x2 y2 = 0 :=
      compute_outcode_eq_zero.mpr ⟨hall1.2, hall2.2, hall3.2, hall4.2⟩
    unfold clipAux
    rw [if_pos ⟨hoc1, hoc2⟩]
    rfl
  | succ n ih =>
    intro x1 y1 x2 y2 hcount
    by_cases hacc : compute_outcode xm xM ym yM x1 y1 = 0 ∧
        compute_outcode xm xM ym yM x2 y2 = 0
    · unfold clipAux
      rw [if_pos hacc]
      rfl
    by_cases hrej : compute_outcode xm xM ym yM x1 y1 &&&
        compute_outcode xm xM ym yM x2 y2 = 0
    case neg =>
      unfold clipAux
      rw [if_neg hacc, if_pos hrej]
      rfl
    case pos =>
    unfold clipAux
    rw [if_neg hacc, if_neg (not_not_intro hrej)]
    by_cases h1 : compute_outcode xm xM ym yM x1 y1 = 0
    · -- the second endpoint is the one clipped
      rw [if_neg (not_not_intro h1)]
      dsimp only
      have hoc2ne : compute_outcode xm xM ym yM x2 y2 ≠ 0 := fun hc =>
        hacc ⟨h1, hc⟩
      have hsel : ¬(compute_outcode xm xM ym yM x2 y2 =
          compute_outcode xm xM ym yM x1 y1) := fun hc =>
        hoc2ne (hc.trans h1)
      obtain ⟨q1, q2, q3, q4⟩ := compute_outcode_eq_zero.mp h1
      by_cases hb8 : compute_outcode xm xM ym yM x2 y2 &&& 8 ≠ 0
      · rw [if_pos hb8, if_neg hsel]
        dsimp only
        apply ih
        have hy2 : yM < y2 := outcode_and8 hb8
        have hden : y2 - y1 ≠ 0 := sub_ne_zero.mpr (by intro hcc; rw [hcc] at hy2; linarith)
        have ht0 : 0 ≤ (yM - y1) / (y2 - y1) := by
          rw [div_nonneg_iff]; left; constructor <;> linarith
        have ht1 : (yM - y1) / (y2 - y1) ≤ 1 := by
          rw [div_le_one_iff]; left; constructor <;> linarith
        have hstep := safeCount_succ_replace2 xm xM ym yM x1 y1 x2 y2
          (x1 + (x2 - x1) * (yM - y1) / (y2 - y1)) yM ((yM - y1) / (y2 - y1))
          ht0 ht1 (by rw [mul_div_assoc])
          (by rw [mul_div_cancel₀ (yM - y1) hden]; ring)
          (Or.inr (Or.inr (Or.inr
            ⟨fun hc => absurd hc.2 (not_le.mpr hy2), q4, le_refl yM⟩)))
        omega
      by_cases hb4 : compute_outcode xm xM ym yM x2 y2 &&& 4 ≠ 0
      case pos =>
        rw [if_neg hb8, if_pos hb4, if_neg hsel]
        dsimp only
        apply ih
        have hy2 : y2 < ym := outcode_and4 hb4
        have hden : y2 - y1 ≠ 0 := sub_ne_zero.mpr (by intro hcc; rw [hcc] at hy2; linarith)
        have ht0 : 0 ≤ (ym - y1) / (y2 - y1) := by
          rw [div_nonneg_iff]; right; constructor <;> linarith
        have ht1 : (ym - y1) / (y2 - y1) ≤ 1 := by
          rw [div_le_one_iff]; right; right; constructor <;> linarith
        have hstep := safeCount_succ_replace2 xm xM ym yM x1 y1 x2 y2
          (x1 + (x2 - x1) * (ym - y1) / (y2 - y1)) ym ((ym - y1) / (y2 - y1))
          ht0 ht1 (by rw [mul_div_assoc])
          (by rw [mul_div_cancel₀ (ym - y1) hden]; ring)
          (Or.inr (Or.inr (Or.inl
            ⟨fun hc => absurd hc.2 (not_le.mpr hy2), q3, le_refl ym⟩)))
        omega
      case neg =>
      by_cases hb2 : compute_outcode xm xM ym yM x2 y2 &&& 2 ≠ 0
      · rw [if_neg hb8, if_neg hb4, if_pos hb2, if_neg hsel]
        dsimp only
        apply ih
        have hx2 : xM < x2 := outcode_and2 hb2
        have hden : x2 - x1 ≠ 0 := sub_ne_zero.mpr (by intro hcc; rw [hcc] at hx2; linarith)
        have ht0 : 0 ≤ (xM - x1) / (x2 - x1) := by
          rw [div_nonneg_iff]; left; constructor <;> linarith
        have ht1 : (xM - x1) / (x2 - x1) ≤ 1 := by
          rw [div_le_one_iff]; left; constructor <;> linarith
        have hstep := safeCount_succ_replace2 xm xM ym yM x1 y1 x2 y2
          xM (y1 + (y2 - y1) * (xM - x1) / (x2 - x1)) ((xM - x1) / (x2 - x1))
          ht0 ht1 (by rw [mul_div_cancel₀ (xM - x1) hden]; ring)
          (by rw [mul_div_assoc])
          (Or.inr (Or.inl
            ⟨fun hc => absurd hc.2 (not_le.mpr hx2), q2, le_refl xM⟩))
        omega
      · rw [if_neg hb8, if_neg hb4, if_neg hb2, if_neg hsel]
        dsimp only
        apply ih
        have hb1 : compute_outcode xm xM ym yM x2 y2 &&& 1 ≠ 0 :=
          outcode_left_of_rest hoc2ne (not_ne_iff.mp hb8) (not_ne_iff.mp hb4)
            (not_ne_iff.mp hb2)
        have hx2 : x2 < xm := outcode_and1 hb1
        have hden : x2 - x1 ≠ 0 := sub_ne_zero.mpr (by intro hcc; rw [hcc] at hx2; linarith)
        have ht0 : 0 ≤ (xm - x1) / (x2 - x1) := by
          rw [div_nonneg_iff]; right; constructor <;> linarith
        have ht1 : (xm - x1) / (x2 - x1) ≤ 1 := by
          rw [div_le_one_iff]; right; right; constructor <;> linarith
        have hstep := safeCount_succ_replace2 xm xM ym yM x1 y1 x2 y2
          xm (y1 + (y2 - y1) * (xm - x1) / (x2 - x1)) ((xm - x1) / (x2 - x1))
          ht0 ht1 (by rw [mul_div_cancel₀ (xm - x1) hden]; ring)
          (by rw [mul_div_assoc])
          (Or.inl ⟨fun hc => absurd hc.2 (not_le.mpr hx2), q1, le_refl xm⟩)
        omega
    · -- the first endpoint is the one clipped
      rw [if_pos h1]
      dsimp only
      rw [if_pos rfl]
      have hrejc : compute_outcode xm xM ym yM x2 y2 &&&
          compute_outcode xm xM ym yM x1 y1 = 0 := by
        rw [Nat.and_comm]; exact hrej
      have hk8 : (8 : ℕ) = 1 ∨ (8 : ℕ) = 2 ∨ (8 : ℕ) = 4 ∨ (8 : ℕ) = 8 := by
        norm_num
      have hk4 : (4 : ℕ) = 1 ∨ (4 : ℕ) = 2 ∨ (4 : ℕ) = 4 ∨ (4 : ℕ) = 8 := by
        norm_num
      have hk2 : (2 : ℕ) = 1 ∨ (2 : ℕ) = 2 ∨ (2 : ℕ) = 4 ∨ (2 : ℕ) = 8 := by
        norm_num
      have hk1 : (1 : ℕ) = 1 ∨ (1 : ℕ) = 2 ∨ (1 : ℕ) = 4 ∨ (1 : ℕ) = 8 := by
        norm_num
      by_cases hb8 : compute_outcode xm xM ym yM x1 y1 &&& 8 ≠ 0
      · rw [if_pos hb8]
        dsimp only
        apply ih
        have hy1 : yM < y1 := outcode_and8 hb8
        have h28 : compute_outcode xm xM ym yM x2 y2 &&& 8 = 0 :=
          and_transfer compute_outcode_mem compute_outcode_mem hk8 hrej hb8
        have hy2 : y2 ≤ yM := outcode_and8_zero hy h28
        have hden : y2 - y1 ≠ 0 := sub_ne_zero.mpr (by intro hcc; rw [hcc] at hy2; linarith)
        have ht0 : 0 ≤ (yM - y1) / (y2 - y1) := by
          rw [div_nonneg_iff]; right; constructor <;> linarith
        have ht1 : (yM - y1) / (y2 - y1) ≤ 1 := by
          rw [div_le_one_iff]; right; right; constructor <;> linarith
        have hstep := safeCount_succ_replace1 xm xM ym yM x1 y1 x2 y2
          (x1 + (x2 - x1) * (yM - y1) / (y2 - y1)) yM ((yM - y1) / (y2 - y1))
          ht0 ht1 (by rw [mul_div_assoc])
          (by rw [mul_div_cancel₀ (yM - y1) hden]; ring)
          (Or.inr (Or.inr (Or.inr
            ⟨fun hc => absurd hc.1 (not_le.mpr hy1), le_refl yM, hy2⟩)))
        omega
      by_cases hb4 : compute_outcode xm xM ym yM x1 y1 &&& 4 ≠ 0
      case pos =>
        rw [if_neg hb8, if_pos hb4]
        dsimp only
        apply ih
        have hy1 : y1 < ym := outcode_and4 hb4
        have h24 : compute_outcode xm xM ym yM x2 y2 &&& 4 = 0 :=
          and_transfer compute_outcode_mem compute_outcode_mem hk4 hrej hb4
        have hy2 : ym ≤ y2 := outcode_and4_zero h24
        have hden : y2 - y1 ≠ 0 := sub_ne_zero.mpr (by intro hcc; rw [hcc] at hy2; linarith)
        have ht0 : 0 ≤ (ym - y1) / (y2 - y1) := by
          rw [div_nonneg_iff]; left; constructor <;> linarith
        have ht1 : (ym - y1) / (y2 - y1) ≤ 1 := by
          rw [div_le_one_iff]; left; constructor <;> linarith
        have hstep := safeCount_succ_replace1 xm xM ym yM x1 y1 x2 y2
          (x1 + (x2 - x1) * (ym - y1) / (y2 - y1)) ym ((ym - y1) / (y2 - y1))
          ht0 ht1 (by rw [mul_div_assoc])
          (by rw [mul_div_cancel₀ (ym - y1) hden]; ring)
          (Or.inr (Or.inr (Or.inl
            ⟨fun hc => absurd hc.1 (not_le.mpr hy1), le_refl ym, hy2⟩)))
        omega
      case neg =>
      by_cases hb2 : compute_outcode xm xM ym yM x1 y1 &&& 2 ≠ 0
      · rw [if_neg hb8, if_neg hb4, if_pos hb2]
        dsimp only
        apply ih
        have hx1 : xM < x1 := outcode_and2 hb2
        have h22 : compute_outcode xm xM ym yM x2 y2 &&& 2 = 0 :=
          and_transfer compute_outcode_mem compute_outcode_mem hk2 hrej hb2
        have hx2 : x2 ≤ xM := outcode_and2_zero hx h22
        have hden : x2 - x1 ≠ 0 := sub_ne_zero.mpr (by intro hcc; rw [hcc] at hx2; linarith)
        have ht0 : 0 ≤ (xM - x1) / (x2 - x1) := by
          rw [div_nonneg_iff]; right; constructor <;> linarith
        have ht1 : (xM - x1) / (x2 - x1) ≤ 1 := by
          rw [div_le_one_iff]; right; right; constructor <;> linarith
        have hstep := safeCount_succ_replace1 xm xM ym yM x1 y1 x2 y2
          xM (y1 + (y2 - y1) * (xM - x1) / (x2 - x1)) ((xM - x1) / (x2 - x1))
          ht0 ht1 (by rw [mul_div_cancel₀ (xM - x1) hden]; ring)
          (by rw [mul_div_assoc])
          (Or.inr (Or.inl
            ⟨fun hc => absurd hc.1 (not_le.mpr hx1), le_refl xM, hx2⟩))
        omega
      · rw [if_neg hb8, if_neg hb4, if_neg hb2]
        dsimp only
        apply ih
        have hb1 : compute_outcode xm xM ym yM x1 y1 &&& 1 ≠ 0 :=
          outcode_left_of_rest h1 (not_ne_iff.mp hb8) (not_ne_iff.mp hb4)
            (not_ne_iff.mp hb2)
        have hx1 : x1 < xm := outcode_and1 hb1
        have h21 : compute_outcode xm xM ym yM x2 y2 &&& 1 = 0 :=
          and_transfer compute_outcode_mem compute_outcode_mem hk1 hrej hb1
        have hx2 : xm ≤ x2 := outcode_and1_zero h21
        have hden : x2 - x1 ≠ 0 := sub_ne_zero.mpr (by intro hcc; rw [hcc] at hx2; linarith)
        have ht0 : 0 ≤ (xm - x1) / (x2 - x1) := by
          rw [div_nonneg_iff]; left; constructor <;> linarith
        have ht1 : (xm - x1) / (x2 - x1) ≤ 1 := by
          rw [div_le_one_iff]; left; constructor <;> linarith
        have hstep := safeCount_succ_replace1 xm xM ym yM x1 y1 x2 y2
          xm (y1 + (y2 - y1) * (xm - x1) / (x2 - x1)) ((xm - x1) / (x2 - x1))
          ht0 ht1 (by rw [mul_div_cancel₀ (xm - x1) hden]; ring)
          (by rw [mul_div_assoc])
          (Or.inl ⟨fun hc => absurd hc.1 (not_le.mpr hx1), le_refl xm, hx2⟩)
        omega

/-- C8: for every input segment and every rectangle with positive width
and height, the Cohen–Sutherland loop of `_clip_line_to_rectangle`
reaches its accept or reject exit within at most 4 clipping iterations
(the fuel-4 run never exhausts its fuel). -/
theorem C8_clip_loop_terminates (w h x1 y1 x2 y2 : ℝ)
    (hw : 0 < w) (hh : 0 < h) :
    (clipAux 4 (-(w / 2)) (w / 2) (-(h / 2)) (h / 2) x1 y1 x2 y2).isSome =
      true :=
  clipAux_isSome_of_count (-(w / 2)) (w / 2) (-(h / 2)) (h / 2)
    (by linarith) (by linarith) 4 x1 y1 x2 y2 (Nat.le_add_left 4 _)

/-- Witness for C8: a concrete segment against a concrete 2 mm × 2 mm
box. -/
theorem C8_witness :
    (0 : ℝ) < 2 ∧
      (clipAux 4 (-((2 : ℝ) / 2)) ((2 : ℝ) / 2) (-((2 : ℝ) / 2)) ((2 : ℝ) / 2)
        0 0 3 0).isSome = true :=
  ⟨by norm_num, C8_clip_loop_terminates 2 2 0 0 3 0 (by norm_num) (by norm_num)⟩

/-! ### Claim C7: totality and defensive behavior -/

/-- C7: `generate_hatch_lines` is total.  An unknown shape kind yields the
empty list; the divisions of the clipper are guarded (when a boundary is
clipped the two endpoints differ in the divided coordinate, since the
clipped endpoint violates the boundary and the reject test guarantees the
other endpoint does not); and the ellipse quadratic divides by `2A ≠ 0`
whenever the semi-axes are nonzero. -/
theorem C7_total_and_defensive :
    (∀ (s : BuildStep) (spot : ℝ), s.shape_type ≠ "square" →
      s.shape_type ≠ "rectangle" → s.shape_type ≠ "circle" →
      s.shape_type ≠ "ellipse" → (s.generate_hatch_lines spot).1 = []) ∧
    (∀ xm xM ym yM x1 y1 x2 y2 : ℝ,
      compute_outcode xm xM ym yM x1 y1 &&&
        compute_outcode xm xM ym yM x2 y2 = 0 →
      ((if compute_outcode xm xM ym yM x1 y1 ≠ 0 then
          compute_outcode xm xM ym yM x1 y1
        else compute_outcode xm xM ym yM x2 y2) &&& 8 ≠ 0 → y2 - y1 ≠ 0) ∧
      ((if compute_outcode xm xM ym yM x1 y1 ≠ 0 then
          compute_outcode xm xM ym yM x1 y1
        else compute_outcode xm xM ym yM x2 y2) &&& 4 ≠ 0 → y2 - y1 ≠ 0) ∧
      ((if compute_outcode xm xM ym yM x1 y1 ≠ 0 then
          compute_outcode xm xM ym yM x1 y1
        else compute_outcode xm xM ym yM x2 y2) &&& 2 ≠ 0 → x2 - x1 ≠ 0) ∧
      ((if compute_outcode xm xM ym yM x1 y1 ≠ 0 then
          compute_outcode xm xM ym yM x1 y1
        else compute_outcode xm xM ym yM x2 y2) &&& 1 ≠ 0 → x2 - x1 ≠ 0)) ∧
    (∀ a b θ : ℝ, a ≠ 0 → b ≠ 0 →
      2 * ((Real.cos θ / a) ^ 2 + (Real.sin θ / b) ^ 2) ≠ 0) := by
  refine ⟨?_, ?_, ?_⟩
  · intro s spot h1 h2 h3 h4
    cases hen : s.hatching_enabled with
    | false => simp [BuildStep.generate_hatch_lines, hen]
    | true =>
      rw [gen_lines_eq s spot hen]
      have hfam : ∀ θ : ℝ,
          (s.withSpacing spot).generate_hatch_lines_at_angle θ = [] := by
        intro θ
        have e1 : (s.withSpacing spot).shape_type = s.shape_type := rfl
        simp [BuildStep.generate_hatch_lines_at_angle, e1, h1, h2, h3, h4]
      rw [hfam, hfam]
      simp
  · intro xm xM ym yM x1 y1 x2 y2 hand
    by_cases h1 : compute_outcode xm xM ym yM x1 y1 = 0
    · rw [if_neg (not_not_intro h1)]
      obtain ⟨q1, q2, q3, q4⟩ := compute_outcode_eq_zero.mp h1
      refine ⟨?_, ?_, ?_, ?_⟩ <;> intro hb
      · have := outcode_and8 hb
        exact sub_ne_zero.mpr (by intro hc; rw [hc] at this; linarith)
      · have := outcode_and4 hb
        exact sub_ne_zero.mpr (by intro hc; rw [hc] at this; linarith)
      · have := outcode_and2 hb
        exact sub_ne_zero.mpr (by intro hc; rw [hc] at this; linarith)
      · have := outcode_and1 hb
        exact sub_ne_zero.mpr (by intro hc; rw [hc] at this; linarith)
    · rw [if_pos h1]
      refine ⟨?_, ?_, ?_, ?_⟩ <;> intro hb
      · have hv1 : yM < y1 := outcode_and8 hb
        have hz : compute_outcode xm xM ym yM x2 y2 &&& 8 = 0 :=
          and_transfer compute_outcode_mem compute_outcode_mem
            (by norm_num) hand hb
        have : y2 < ym ∨ y2 ≤ yM := by
          unfold compute_outcode at hz
          split_ifs at hz <;> first | (left; assumption) | (right; linarith) |
            exact absurd hz (by decide)
        rcases this with hv2 | hv2 <;>
          refine sub_ne_zero.mpr (fun hc => ?_)
        · rw [hc] at hv2
          have := outcode_and8 hb
          unfold compute_outcode at hb
          split_ifs at hb <;> first | linarith | exact absurd (by decide) hb
        · rw [hc] at hv2; linarith
      · have hv1 : y1 < ym := outcode_and4 hb
        have hz : compute_outcode xm xM ym yM x2 y2 &&& 4 = 0 :=
          and_transfer compute_outcode_mem compute_outcode_mem
            (by norm_num) hand hb
        have hv2 : ym ≤ y2 := outcode_and4_zero hz
        exact sub_ne_zero.mpr (by intro hc; rw [hc] at hv2; linarith)
      · have hv1 : xM < x1 := outcode_and2 hb
        have hz : compute_outcode xm xM ym yM x2 y2 &&& 2 = 0 :=
          and_transfer compute_outcode_mem compute_outcode_mem
            (by norm_num) hand hb
        have : x2 < xm ∨ x2 ≤ xM := by
          unfold compute_outcode at hz
          split_ifs at hz <;> first | (left; assumption) | (right; linarith) |
            exact absurd hz (by decide)
        rcases this with hv2 | hv2 <;>
          refine sub_ne_zero.mpr (fun hc => ?_)
        · rw [hc] at hv2
          unfold compute_outcode at hb
          split_ifs at hb <;> first | linarith | exact absurd (by decide) hb
        · rw [hc] at hv2; linarith
      · have hv1 : x1 < xm := outcode_and1 hb
        have hz : compute_outcode xm xM ym yM x2 y2 &&& 1 = 0 :=
          and_transfer compute_outcode_mem compute_outcode_mem
            (by norm_num) hand hb
        have hv2 : xm ≤ x2 := outcode_and1_zero hz
        exact sub_ne_zero.mpr (by intro hc; rw [hc] at hv2; linarith)
  · intro a b θ ha hb
    have hcs := Real.sin_sq_add_cos_sq θ
    rcases eq_or_ne (Real.cos θ) 0 with hc0 | hc0
    · have hs0 : Real.sin θ ≠ 0 := by
        intro hs0
        rw [hc0, hs0] at hcs
        norm_num at hcs
      have h1 : 0 < (Real.sin θ / b) ^ 2 :=
        pow_two_pos_of_ne_zero (div_ne_zero hs0 hb)
      have h2 : (0 : ℝ) ≤ (Real.cos θ / a) ^ 2 := sq_nonneg _
      positivity
    · have h1 : 0 < (Real.cos θ / a) ^ 2 :=
        pow_two_pos_of_ne_zero (div_ne_zero hc0 ha)
      have h2 : (0 : ℝ) ≤ (Real.sin θ / b) ^ 2 := sq_nonneg _
      positivity

/-- Witness for C7: an unknown shape kind (`"triangle"`), the TOP-clip
denominator at a concrete configuration, and the ellipse quadratic
coefficient at a concrete angle. -/
theorem C7_witness :
    (({ shape_type := "triangle", hatching_enabled := true } :
        BuildStep).generate_hatch_lines 100).1 = [] ∧
    (((if compute_outcode (-1 : ℝ) 1 (-1) 1 0 2 ≠ 0 then
          compute_outcode (-1 : ℝ) 1 (-1) 1 0 2
        else compute_outcode (-1 : ℝ) 1 (-1) 1 0 0) &&& 8 ≠ 0) →
      (0 : ℝ) - 2 ≠ 0) ∧
    2 * ((Real.cos 0 / 1) ^ 2 + (Real.sin 0 / 1) ^ 2) ≠ 0 :=
  ⟨C7_total_and_defensive.1 _ 100 (by simp) (by simp) (by simp) (by simp),
   (C7_total_and_defensive.2.1 (-1) 1 (-1) 1 0 2 0 0
     (by unfold compute_outcode; norm_num)).1,
   C7_total_and_defensive.2.2 1 1 0 (by norm_num) (by norm_num)⟩

/-! ### Evaluating the clipper on horizontal spanning lines -/

/-- Accept exit of the loop, any fuel. -/
lemma clipAux_accept (fuel : ℕ) (xm xM ym yM x1 y1 x2 y2 : ℝ)
    (h1 : compute_outcode xm xM ym yM x1 y1 = 0)
    (h2 : compute_outcode xm xM ym yM x2 y2 = 0) :
    clipAux fuel xm xM ym yM x1 y1 x2 y2 = some (some ((x1, y1), (x2, y2))) := by
  unfold clipAux
  rw [if_pos ⟨h1, h2⟩]

/-- Reject exit of the loop, any fuel. -/
lemma clipAux_reject (fuel : ℕ) (xm xM ym yM x1 y1 x2 y2 : ℝ)
    (h : compute_outcode xm xM ym yM x1 y1 &&&
      compute_outcode xm xM ym yM x2 y2 ≠ 0) :
    clipAux fuel xm xM ym yM x1 y1 x2 y2 = some none := by
  have hacc : ¬(compute_outcode xm xM ym yM x1 y1 = 0 ∧
      compute_outcode xm xM ym yM x2 y2 = 0) := by
    rintro ⟨e1, e2⟩
    rw [e1, e2] at h
    exact h rfl
  unfold clipAux
  rw [if_neg hacc, if_pos h]

/-- One LEFT-clip iteration on the first endpoint. -/
lemma clipAux_succ_left1 (fuel : ℕ) (xm xM ym yM x1 y1 x2 y2 : ℝ)
    (hne : compute_outcode xm xM ym yM x1 y1 ≠ 0)
    (hand : compute_outcode xm xM ym yM x1 y1 &&&
      compute_outcode xm xM ym yM x2 y2 = 0)
    (hb8 : compute_outcode xm xM ym yM x1 y1 &&& 8 = 0)
    (hb4 : compute_outcode xm xM ym yM x1 y1 &&& 4 = 0)
    (hb2 : compute_outcode xm xM ym yM x1 y1 &&& 2 = 0) :
    clipAux (fuel + 1) xm xM ym yM x1 y1 x2 y2 =
      clipAux fuel xm xM ym yM
        xm (y1 + (y2 - y1) * (xm - x1) / (x2 - x1)) x2 y2 := by
  have hacc : ¬(compute_outcode xm xM ym yM x1 y1 = 0 ∧
      compute_outcode xm xM ym yM x2 y2 = 0) := fun hc => hne hc.1
  conv_lhs => rw [clipAux]
  rw [if_neg hacc, if_neg (not_not_intro hand), if_pos hne]
  dsimp only
  rw [if_pos rfl, if_neg (not_not_intro hb8), if_neg (not_not_intro hb4),
    if_neg (not_not_intro hb2)]

/-- One RIGHT-clip iteration on the second endpoint (the first endpoint
being inside). -/
lemma clipAux_succ_right2 (fuel : ℕ) (xm xM ym yM x1 y1 x2 y2 : ℝ)
    (h1 : compute_outcode xm xM ym yM x1 y1 = 0)
    (h2 : compute_outcode xm xM ym yM x2 y2 ≠ 0)
    (hb8 : compute_outcode xm xM ym yM x2 y2 &&& 8 = 0)
    (hb4 : compute_outcode xm xM ym yM x2 y2 &&& 4 = 0)
    (hb2 : compute_outcode xm xM ym yM x2 y2 &&& 2 ≠ 0) :
    clipAux (fuel + 1) xm xM ym yM x1 y1 x2 y2 =
      clipAux fuel xm xM ym yM
        x1 y1 xM (y1 + (y2 - y1) * (xM - x1) / (x2 - x1)) := by
  have hacc : ¬(compute_outcode xm xM ym yM x1 y1 = 0 ∧
      compute_outcode xm xM ym yM x2 y2 = 0) := fun hc => h2 hc.2
  have hand : compute_outcode xm xM ym yM x1 y1 &&&
      compute_outcode xm xM ym yM x2 y2 = 0 := by
    rw [h1]
    exact Nat.zero_and _
  have hsel : ¬(compute_outcode xm xM ym yM x2 y2 =
      compute_outcode xm xM ym yM x1 y1) := fun hc => h2 (hc.trans h1)
  conv_lhs => rw [clipAux]
  rw [if_neg hacc, if_neg (not_not_intro hand), if_neg (not_not_intro h1)]
  dsimp only
  rw [if_neg hsel, if_neg (not_not_intro hb8), if_neg (not_not_intro hb4),
    if_pos hb2]

/-- A horizontal line spanning the box at height `c` inside the vertical
bounds is clipped to the full width at constant height. -/
lemma clip_span_in (w h x1 x2 c : ℝ) (hw : 0 ≤ w)
    (h1 : x1 < -(w / 2)) (h2 : w / 2 < x2)
    (hc1 : -(h / 2) ≤ c) (hc2 : c ≤ h / 2) :
    clip_line_to_rectangle (x1, c) (x2, c) w h =
      some ((-(w / 2), c), (w / 2, c)) := by
  have e1 : compute_outcode (-(w / 2)) (w / 2) (-(h / 2)) (h / 2) x1 c = 1 := by
    unfold compute_outcode
    rw [if_pos h1, if_neg (not_lt.mpr hc1), if_neg (not_lt.mpr hc2)]
    decide
  have e2 : compute_outcode (-(w / 2)) (w / 2) (-(h / 2)) (h / 2) x2 c = 2 := by
    unfold compute_outcode
    rw [if_neg (not_lt.mpr (by linarith : -(w / 2) ≤ x2)), if_pos h2,
      if_neg (not_lt.mpr hc1), if_neg (not_lt.mpr hc2)]
    decide
  have e3 : compute_outcode (-(w / 2)) (w / 2) (-(h / 2)) (h / 2)
      (-(w / 2)) c = 0 := by
    refine compute_outcode_eq_zero.mpr ⟨le_refl _, by linarith, hc1, hc2⟩
  have e4 : compute_outcode (-(w / 2)) (w / 2) (-(h / 2)) (h / 2)
      (w / 2) c = 0 := by
    refine compute_outcode_eq_zero.mpr ⟨by linarith, le_refl _, hc1, hc2⟩
  unfold clip_line_to_rectangle
  dsimp only
  rw [show (4 : ℕ) = 3 + 1 from rfl,
    clipAux_succ_left1 3 _ _ _ _ _ _ _ _ (by rw [e1]; decide)
      (by rw [e1, e2]; decide) (by rw [e1]; decide) (by rw [e1]; decide)
      (by rw [e1]; decide),
    show c + (c - c) * (-(w / 2) - x1) / (x2 - x1) = c by ring,
    show (3 : ℕ) = 2 + 1 from rfl,
    clipAux_succ_right2 2 _ _ _ _ _ _ _ _ e3 (by rw [e2]; decide)
      (by rw [e2]; decide) (by rw [e2]; decide) (by rw [e2]; decide),
    show c + (c - c) * (w / 2 - -(w / 2)) / (x2 - -(w / 2)) = c by ring,
    clipAux_accept 2 _ _ _ _ _ _ _ _ e3 e4]
  rfl

/-- A horizontal line spanning the box at a height outside the vertical
bounds is rejected. -/
lemma clip_span_out (w h x1 x2 c : ℝ) (hw : 0 ≤ w)
    (h1 : x1 < -(w / 2)) (h2 : w / 2 < x2)
    (hc : c < -(h / 2) ∨ h / 2 < c) :
    clip_line_to_rectangle (x1, c) (x2, c) w h = none := by
  unfold clip_line_to_rectangle
  dsimp only
  by_cases hb : c < -(h / 2)
  · have e1 : compute_outcode (-(w / 2)) (w / 2) (-(h / 2)) (h / 2) x1 c = 5 := by
      unfold compute_outcode
      rw [if_pos h1, if_pos hb]
      decide
    have e2 : compute_outcode (-(w / 2)) (w / 2) (-(h / 2)) (h / 2) x2 c = 6 := by
      unfold compute_outcode
      rw [if_neg (not_lt.mpr (by linarith : -(w / 2) ≤ x2)), if_pos h2,
        if_pos hb]
      decide
    rw [clipAux_reject 4 _ _ _ _ _ _ _ _ (by rw [e1, e2]; decide)]
    rfl
  · have hc' : h / 2 < c := hc.resolve_left hb
    have e1 : compute_outcode (-(w / 2)) (w / 2) (-(h / 2)) (h / 2) x1 c = 9 := by
      unfold compute_outcode
      rw [if_pos h1, if_neg hb, if_pos hc']
      decide
    have e2 : compute_outcode (-(w / 2)) (w / 2) (-(h / 2)) (h / 2) x2 c = 10 := by
      unfold compute_outcode
      rw [if_neg (not_lt.mpr (by linarith : -(w / 2) ≤ x2)), if_pos h2,
        if_neg hb, if_pos hc']
      decide
    rw [clipAux_reject 4 _ _ _ _ _ _ _ _ (by rw [e1, e2]; decide)]
    rfl

/-- At angle 0 the rectangle family generator produces, for each
candidate index inside the vertical window, the full-width horizontal
segment at that offset (translated by the step offsets), and nothing
otherwise. -/
lemma rect_hatches_angle_zero (s : BuildStep) (w h sp : ℝ)
    (hact : s.actual_hatch_spacing = some sp)
    (hw : 0 < w) (hh : 0 < h) (hsp : 0 < sp) :
    s.generate_rectangle_hatches w h 0 =
      (List.range (hatchNumLines (Real.sqrt (w ^ 2 + h ^ 2)) sp)).filterMap
        (fun (i : ℕ) =>
          if -(h / 2) ≤ -Real.sqrt (w ^ 2 + h ^ 2) / 2 + (i : ℝ) * sp ∧
              -Real.sqrt (w ^ 2 + h ^ 2) / 2 + (i : ℝ) * sp ≤ h / 2 then
            some ((-(w / 2) + s.x_offset,
                   -Real.sqrt (w ^ 2 + h ^ 2) / 2 + (i : ℝ) * sp + s.y_offset),
                  (w / 2 + s.x_offset,
                   -Real.sqrt (w ^ 2 + h ^ 2) / 2 + (i : ℝ) * sp + s.y_offset))
          else none) := by
  have hD2 : Real.sqrt (w ^ 2 + h ^ 2) ^ 2 = w ^ 2 + h ^ 2 :=
    Real.sq_sqrt (by positivity)
  have hD0 : 0 ≤ Real.sqrt (w ^ 2 + h ^ 2) := Real.sqrt_nonneg _
  have hwD : w / 2 < Real.sqrt (w ^ 2 + h ^ 2) := by nlinarith
  unfold BuildStep.generate_rectangle_hatches
  rw [hact]
  simp only [Option.getD_some]
  rw [if_neg (by push_neg; exact ⟨by linarith, by linarith, by linarith⟩)]
  apply List.filterMap_congr
  intro i _
  dsimp only
  rw [zero_mul, Real.cos_zero, Real.sin_zero]
  simp only [mul_zero, mul_one, neg_zero, sub_zero, add_zero, zero_sub,
    zero_add]
  by_cases hwin : -(h / 2) ≤ -Real.sqrt (w ^ 2 + h ^ 2) / 2 + (i : ℝ) * sp ∧
      -Real.sqrt (w ^ 2 + h ^ 2) / 2 + (i : ℝ) * sp ≤ h / 2
  · rw [if_pos hwin,
      clip_span_in w h _ _ _ (le_of_lt hw) (by linarith) (by linarith)
        hwin.1 hwin.2]
    rfl
  · rw [if_neg hwin,
      clip_span_out w h _ _ _ (le_of_lt hw) (by linarith) (by linarith)
        (by rcases not_and_or.mp hwin with hcl | hcr
            · exact Or.inl (not_le.mp hcl)
            · exact Or.inr (not_le.mp hcr))]
    rfl

/-! ### Counting surviving lines -/

lemma length_filterMap_ite {β : Type} (g : ℕ → β) (p : ℕ → Prop)
    [DecidablePred p] (l : List ℕ) :
    (l.filterMap fun i => if p i then some (g i) else none).length =
      l.countP fun i => decide (p i) := by
  induction l with
  | nil => rfl
  | cons a t ih =>
    by_cases hp : p a <;>
      simp [List.filterMap_cons, List.countP_cons, hp, ih]

lemma hatchNumLines_eq (D sp : ℝ) (k : ℕ) (h1 : (k : ℝ) ≤ D / sp)
    (h2 : D / sp < (k : ℝ) + 1) : hatchNumLines D sp = k + 2 := by
  unfold hatchNumLines
  have hfl : ⌊D / sp⌋ = (k : ℤ) := by
    rw [Int.floor_eq_iff]
    exact ⟨by exact_mod_cast h1, by push_cast; exact h2⟩
  rw [hfl]
  simp

/-! ### Claim C1: the end-to-end square scenario -/

lemma sqrt200_lb : (141 / 10 : ℝ) < Real.sqrt 200 :=
  (Real.lt_sqrt (by norm_num)).mpr (by norm_num)

lemma sqrt200_ub : Real.sqrt 200 < 142 / 10 :=
  (Real.sqrt_lt' (by norm_num)).mpr (by norm_num)

/-- The candidate count of the spec's square scenario: the code uses the
bounding diagonal `sqrt 200`, not the side length. -/
lemma demoSquare_num_lines :
    hatchNumLines (Real.sqrt ((10 : ℝ) ^ 2 + 10 ^ 2))
      (demoSquare.calculate_hatch_spacing 100) = 143 := by
  have h200 : ((10 : ℝ) ^ 2 + 10 ^ 2) = 200 := by norm_num
  have hsp : demoSquare.calculate_hatch_spacing 100 = 1 / 10 := by
    norm_num [BuildStep.calculate_hatch_spacing, demoSquare]
  rw [h200, hsp]
  have hdiv : Real.sqrt 200 / (1 / 10) = 10 * Real.sqrt 200 := by ring
  refine hatchNumLines_eq _ _ 141 ?_ ?_ <;> rw [hdiv]
  · push_cast
    nlinarith [sqrt200_lb]
  · push_cast
    nlinarith [sqrt200_ub]

/-- The vertical window of the square scenario selects exactly the
indices 21 through 120. -/
lemma demoSquare_window (i : ℕ) :
    (-((10 : ℝ) / 2) ≤ -Real.sqrt ((10 : ℝ) ^ 2 + 10 ^ 2) / 2 +
        (i : ℝ) * (1 / 10) ∧
      -Real.sqrt ((10 : ℝ) ^ 2 + 10 ^ 2) / 2 + (i : ℝ) * (1 / 10) ≤
        (10 : ℝ) / 2) ↔ (21 ≤ i ∧ i ≤ 120) := by
  have h200 : ((10 : ℝ) ^ 2 + 10 ^ 2) = 200 := by norm_num
  rw [h200]
  constructor
  · rintro ⟨ha, hb⟩
    constructor
    · by_contra hc
      have hi : (i : ℝ) ≤ 20 := by exact_mod_cast (by omega : i ≤ 20)
      nlinarith [sqrt200_lb]
    · by_contra hc
      have hi : (121 : ℝ) ≤ (i : ℝ) := by exact_mod_cast (by omega : 121 ≤ i)
      nlinarith [sqrt200_ub]
  · rintro ⟨ha, hb⟩
    have hi1 : (21 : ℝ) ≤ (i : ℝ) := by exact_mod_cast ha
    have hi2 : (i : ℝ) ≤ 120 := by exact_mod_cast hb
    constructor
    · nlinarith [sqrt200_ub]
    · nlinarith [sqrt200_lb]

/-- The scenario's result list, fully evaluated up to the window
predicate. -/
lemma demoSquare_eval :
    (demoSquare.generate_hatch_lines 100).1 =
      (List.range 143).filterMap
        (fun (i : ℕ) =>
          if -((10 : ℝ) / 2) ≤ -Real.sqrt ((10 : ℝ) ^ 2 + 10 ^ 2) / 2 +
                (i : ℝ) * (1 / 10) ∧
              -Real.sqrt ((10 : ℝ) ^ 2 + 10 ^ 2) / 2 + (i : ℝ) * (1 / 10) ≤
                (10 : ℝ) / 2 then
            some ((-((10 : ℝ) / 2) + (demoSquare.withSpacing 100).x_offset,
                   -Real.sqrt ((10 : ℝ) ^ 2 + 10 ^ 2) / 2 + (i : ℝ) * (1 / 10) +
                     (demoSquare.withSpacing 100).y_offset),
                  ((10 : ℝ) / 2 + (demoSquare.withSpacing 100).x_offset,
                   -Real.sqrt ((10 : ℝ) ^ 2 + 10 ^ 2) / 2 + (i : ℝ) * (1 / 10) +
                     (demoSquare.withSpacing 100).y_offset))
          else none) := by
  have hlin : (demoSquare.generate_hatch_lines 100).1 =
      (demoSquare.withSpacing 100).generate_hatch_lines_at_angle 0 := by
    rw [gen_lines_eq demoSquare 100 rfl]
    have hp : demoSquare.hatch_pattern = "linear" := rfl
    have hang : demoSquare.hatch_angle = 0 := rfl
    rw [hp, hang]
    simp
  have hsh : (demoSquare.withSpacing 100).shape_type = "square" := rfl
  have hdim : ((demoSquare.withSpacing 100).dimensions "size").getD 0 = 10 := by
    simp [demoSquare, BuildStep.withSpacing]
  have hact : (demoSquare.withSpacing 100).actual_hatch_spacing =
      some (1 / 10) := by
    norm_num [BuildStep.withSpacing, BuildStep.calculate_hatch_spacing,
      demoSquare]
  rw [hlin]
  simp only [BuildStep.generate_hatch_lines_at_angle, hsh, reduceIte]
  rw [hdim]
  rw [rect_hatches_angle_zero _ 10 10 (1 / 10) hact (by norm_num)
    (by norm_num) (by norm_num)]
  have hnum : hatchNumLines (Real.sqrt ((10 : ℝ) ^ 2 + 10 ^ 2)) (1 / 10) =
      143 := by
    have hsp : demoSquare.calculate_hatch_spacing 100 = 1 / 10 := by
      norm_num [BuildStep.calculate_hatch_spacing, demoSquare]
    rw [← hsp]
    exact demoSquare_num_lines
  rw [hnum]

/-- C1, counterexample: the code considers `floor(sqrt(200)/0.1) + 2 =
143` candidate lines for the 10 mm square, not `floor(10/0.1) + 2 =
102`: the sweep range is the bounding-box diagonal, not the side. -/
theorem C1_counterexample :
    hatchNumLines (Real.sqrt ((10 : ℝ) ^ 2 + 10 ^ 2))
      (demoSquare.calculate_hatch_spacing 100) ≠ 102 := by
  rw [demoSquare_num_lines]
  norm_num

/-- C1, amended: the scenario considers 143 candidate lines, exactly 100
of them survive the clipping, and every surviving segment is horizontal
(`y` constant within `[-5, 5]`) with `x` spanning the full width from
`-5` to `5`. -/
theorem C1_amended :
    hatchNumLines (Real.sqrt ((10 : ℝ) ^ 2 + 10 ^ 2))
      (demoSquare.calculate_hatch_spacing 100) = 143 ∧
    (demoSquare.generate_hatch_lines 100).1.length = 100 ∧
    ∀ seg ∈ (demoSquare.generate_hatch_lines 100).1,
      seg.1.1 = -5 ∧ seg.2.1 = 5 ∧ seg.1.2 = seg.2.2 ∧
      -5 ≤ seg.1.2 ∧ seg.1.2 ≤ 5 := by
  refine ⟨demoSquare_num_lines, ?_, ?_⟩
  · rw [demoSquare_eval, length_filterMap_ite]
    have h100 : List.countP (fun i => decide (21 ≤ i ∧ i ≤ 120))
        (List.range 143) = 100 := by
      set_option maxRecDepth 20000 in decide
    rw [← h100]
    exact List.countP_congr (fun a _ => by
      simp only [decide_eq_true_eq]
      exact demoSquare_window a)
  · intro seg hseg
    rw [demoSquare_eval] at hseg
    simp only [List.mem_filterMap, List.mem_range] at hseg
    obtain ⟨i, hi, heq⟩ := hseg
    by_cases hwin : -((10 : ℝ) / 2) ≤ -Real.sqrt ((10 : ℝ) ^ 2 + 10 ^ 2) / 2 +
        (i : ℝ) * (1 / 10) ∧
        -Real.sqrt ((10 : ℝ) ^ 2 + 10 ^ 2) / 2 + (i : ℝ) * (1 / 10) ≤
          (10 : ℝ) / 2
    · rw [if_pos hwin] at heq
      simp only [Option.some.injEq] at heq
      subst heq
      have hx0 : (demoSquare.withSpacing 100).x_offset = 0 := rfl
      have hy0 : (demoSquare.withSpacing 100).y_offset = 0 := rfl
      rw [hx0, hy0]
      dsimp only
      refine ⟨by norm_num, by norm_num, by norm_num, ?_, ?_⟩
      · have := hwin.1
        rw [add_zero]
        linarith
      · have := hwin.2
        rw [add_zero]
        linarith
    · rw [if_neg hwin] at heq
      exact absurd heq (by simp)

/-! ### Claim C6: multiplier monotonicity -/

lemma sqrt25_eq : Real.sqrt ((3 : ℝ) ^ 2 + 4 ^ 2) = 5 := by
  rw [show ((3 : ℝ) ^ 2 + 4 ^ 2) = 5 ^ 2 by norm_num,
    Real.sqrt_sq (by norm_num : (0 : ℝ) ≤ 5)]

/-- The 3×4 rectangle demo reduces to the angle-0 rectangle family. -/
lemma demoRect_lines (m : ℝ) :
    ((demoRect m).generate_hatch_lines 1000).1 =
      ((demoRect m).withSpacing 1000).generate_rectangle_hatches 3 4 0 := by
  rw [gen_lines_eq _ 1000 rfl]
  have hp : (demoRect m).hatch_pattern = "linear" := rfl
  have hang : (demoRect m).hatch_angle = 0 := rfl
  rw [hp, hang]
  simp
  have hsh : ((demoRect m).withSpacing 1000).shape_type = "rectangle" := rfl
  simp only [BuildStep.generate_hatch_lines_at_angle, hsh, reduceIte]
  have hw : (((demoRect m).withSpacing 1000).dimensions "width").getD 0 = 3 := by
    simp [demoRect, BuildStep.withSpacing]
  have hl : (((demoRect m).withSpacing 1000).dimensions "length").getD 0 = 4 := by
    simp [demoRect, BuildStep.withSpacing]
  rw [hw, hl]
  simp

lemma demoRect_act (m : ℝ) :
    ((demoRect m).withSpacing 1000).actual_hatch_spacing = some m := by
  norm_num [BuildStep.withSpacing, BuildStep.calculate_hatch_spacing, demoRect]

lemma demoRect_len_049 :
    ((demoRect (49 / 100)).generate_hatch_lines 1000).1.length = 8 := by
  rw [demoRect_lines,
    rect_hatches_angle_zero _ 3 4 (49 / 100) (demoRect_act _) (by norm_num)
      (by norm_num) (by norm_num), sqrt25_eq,
    hatchNumLines_eq 5 (49 / 100) 10 (by norm_num) (by norm_num),
    length_filterMap_ite]
  have h8 : List.countP (fun i => decide (2 ≤ i ∧ i ≤ 9))
      (List.range (10 + 2)) = 8 := by decide
  rw [← h8]
  apply List.countP_congr
  intro a _
  simp only [decide_eq_true_eq]
  constructor
  · rintro ⟨ha, hb⟩
    constructor
    · by_contra hc
      have hi : (a : ℝ) ≤ 1 := by exact_mod_cast (by omega : a ≤ 1)
      linarith
    · by_contra hc
      have hi : (10 : ℝ) ≤ (a : ℝ) := by exact_mod_cast (by omega : 10 ≤ a)
      linarith
  · rintro ⟨h2, h9⟩
    have ha1 : (2 : ℝ) ≤ (a : ℝ) := by exact_mod_cast h2
    have ha2 : (a : ℝ) ≤ 9 := by exact_mod_cast h9
    constructor <;> linarith

lemma demoRect_len_05 :
    ((demoRect (1 / 2)).generate_hatch_lines 1000).1.length = 9 := by
  rw [demoRect_lines,
    rect_hatches_angle_zero _ 3 4 (1 / 2) (demoRect_act _) (by norm_num)
      (by norm_num) (by norm_num), sqrt25_eq,
    hatchNumLines_eq 5 (1 / 2) 10 (by norm_num) (by norm_num),
    length_filterMap_ite]
  have h9 : List.countP (fun i => decide (1 ≤ i ∧ i ≤ 9))
      (List.range (10 + 2)) = 9 := by decide
  rw [← h9]
  apply List.countP_congr
  intro a _
  simp only [decide_eq_true_eq]
  constructor
  · rintro ⟨ha, hb⟩
    constructor
    · by_contra hc
      have hi : (a : ℝ) ≤ 0 := by exact_mod_cast (by omega : a ≤ 0)
      linarith
    · by_contra hc
      have hi : (10 : ℝ) ≤ (a : ℝ) := by exact_mod_cast (by omega : 10 ≤ a)
      linarith
  · rintro ⟨h1, h9'⟩
    have ha1 : (1 : ℝ) ≤ (a : ℝ) := by exact_mod_cast h1
    have ha2 : (a : ℝ) ≤ 9 := by exact_mod_cast h9'
    constructor <;> linarith

/-- C6, counterexample: for the 3×4 mm rectangle at angle 0 with spot
size 1000 microns, raising the multiplier from 0.49 to 0.5 strictly
raises the spacing yet the returned segment count grows from 8 to 9, so
the count is not non-increasing in the multiplier. -/
theorem C6_counterexample :
    (49 / 100 : ℝ) < 1 / 2 ∧
    ((demoRect (49 / 100)).generate_hatch_lines 1000).1.length = 8 ∧
    ((demoRect (1 / 2)).generate_hatch_lines 1000).1.length = 9 ∧
    ¬(((demoRect (1 / 2)).generate_hatch_lines 1000).1.length ≤
        ((demoRect (49 / 100)).generate_hatch_lines 1000).1.length) := by
  refine ⟨by norm_num, demoRect_len_049, demoRect_len_05, ?_⟩
  rw [demoRect_len_049, demoRect_len_05]
  omega

/-- C6, amended: increasing the multiplier strictly increases the derived
spacing, and the candidate-line count `int(diagonal/spacing) + 2` is
non-increasing; the number of segments that survive clipping, however,
is not monotone (see the counterexample). -/
theorem C6_amended (s : BuildStep) (spot m1 m2 : ℝ) (hspot : 0 < spot)
    (hm1 : 0 < m1) (hm : m1 < m2) :
    ({ s with hatch_spacing_multiplier := m1 } :
        BuildStep).calculate_hatch_spacing spot <
      ({ s with hatch_spacing_multiplier := m2 } :
        BuildStep).calculate_hatch_spacing spot ∧
    ∀ D : ℝ, 0 ≤ D →
      hatchNumLines D (({ s with hatch_spacing_multiplier := m2 } :
          BuildStep).calculate_hatch_spacing spot) ≤
        hatchNumLines D (({ s with hatch_spacing_multiplier := m1 } :
          BuildStep).calculate_hatch_spacing spot) := by
  have e1 : ({ s with hatch_spacing_multiplier := m1 } :
      BuildStep).calculate_hatch_spacing spot = spot / 1000 * m1 := rfl
  have e2 : ({ s with hatch_spacing_multiplier := m2 } :
      BuildStep).calculate_hatch_spacing spot = spot / 1000 * m2 := rfl
  have h0 : 0 < spot / 1000 := by positivity
  constructor
  · rw [e1, e2]
    exact mul_lt_mul_of_pos_left hm h0
  · intro D hD
    rw [e1, e2]
    unfold hatchNumLines
    have hsp1 : 0 < spot / 1000 * m1 := by positivity
    have hle : spot / 1000 * m1 ≤ spot / 1000 * m2 := by nlinarith
    have hmono : D / (spot / 1000 * m2) ≤ D / (spot / 1000 * m1) :=
      div_le_div_of_nonneg_left hD hsp1 hle
    have hfl := Int.floor_mono hmono
    have := Int.toNat_le_toNat hfl
    omega

/-- Witness for C6 (amended) at the counterexample's configuration. -/
theorem C6_witness :
    ({ demoRect 1 with hatch_spacing_multiplier := (49 / 100 : ℝ) } :
        BuildStep).calculate_hatch_spacing 1000 <
      ({ demoRect 1 with hatch_spacing_multiplier := (1 / 2 : ℝ) } :
        BuildStep).calculate_hatch_spacing 1000 ∧
    ∀ D : ℝ, 0 ≤ D →
      hatchNumLines D (({ demoRect 1 with
          hatch_spacing_multiplier := (1 / 2 : ℝ) } :
          BuildStep).calculate_hatch_spacing 1000) ≤
        hatchNumLines D (({ demoRect 1 with
          hatch_spacing_multiplier := (49 / 100 : ℝ) } :
          BuildStep).calculate_hatch_spacing 1000) :=
  C6_amended (demoRect 1) 1000 (49 / 100) (1 / 2) (by norm_num) (by norm_num)
    (by norm_num)

end

end OBP
